import Mathlib

/-!
Verification of the Proofora ML core (proofora-ml/app): the image
fingerprinting engine (scan.py) and the multi-metric similarity engine
(compare.py), shallowly embedded in Lean 4.

Modelling conventions:
* Pixel grids are total functions over integer coordinates; uint8 channel
  values are natural numbers, float arrays are exact rationals.
* Library primitives that the source calls as black boxes (PIL LANCZOS
  resize, the imagehash digests, the ORB detector, the Canny edge map, the
  FFT magnitude spectrum) are explicit collaborator parameters, matching
  the specification, which treats them as external numeric contracts.
  All glue code around them is translated from the source.
* IEEE NaN, which arises in compute_ssim when data_range is 0 (division
  0/0), is modelled by Option: none is NaN, and arithmetic on NaN
  propagates through Option.map, exactly as NaN propagates through
  numpy arithmetic and np.clip.
* datetime.utcnow() is modelled as an explicit string parameter. SHA-256
  is implemented concretely (FIPS 180-4) over byte lists.
-/

namespace Proofora

/-- Rational clip, modelling np.clip(x, lo, hi) for lo <= hi. -/
def clipQ (x lo hi : ℚ) : ℚ := max lo (min x hi)

/-- Python round(x, 2) on a rational (ties modelled by round-half-up). -/
def pyRound2 (x : ℚ) : ℚ := ((round (x * 100) : ℤ) : ℚ) / 100

/-- Python round(x, 2) on a real number. -/
noncomputable def pyRound2R (x : ℝ) : ℝ := ((round (x * 100) : ℤ) : ℝ) / 100

/-! ## SHA-256 (FIPS 180-4) over byte lists, used by hashlib.sha256 call sites -/

/-- 32-bit truncation. -/
def w32 (n : ℕ) : ℕ := n % 4294967296

/-- 32-bit right rotation. -/
def rotr (n x : ℕ) : ℕ := w32 ((x >>> n) ||| (x <<< (32 - n)))

/-- Round constants of SHA-256 (decimal form of the FIPS 180-4 table). -/
def sha256K : List ℕ :=
  [1116352408, 1899447441, 3049323471, 3921009573, 961987163,
   1508970993, 2453635748, 2870763221, 3624381080, 310598401,
   607225278, 1426881987, 1925078388, 2162078206, 2614888103,
   3248222580, 3835390401, 4022224774, 264347078, 604807628,
   770255983, 1249150122, 1555081692, 1996064986, 2554220882,
   2821834349, 2952996808, 3210313671, 3336571891, 3584528711,
   113926993, 338241895, 666307205, 773529912, 1294757372,
   1396182291, 1695183700, 1986661051, 2177026350, 2456956037,
   2730485921, 2820302411, 3259730800, 3345764771, 3516065817,
   3600352804, 4094571909, 275423344, 430227734, 506948616,
   659060556, 883997877, 958139571, 1322822218, 1537002063,
   1747873779, 1955562222, 2024104815, 2227730452, 2361852424,
   2428436474, 2756734187, 3204031479, 3329325298]

/-- Initial hash state of SHA-256. -/
def sha256H0 : List ℕ :=
  [1779033703, 3144134277, 1013904242, 2773480762,
   1359893119, 2600822924, 528734635, 1541459225]

/-- Big-endian 8-byte encoding of a natural number. -/
def beBytes8 (n : ℕ) : List ℕ :=
  [(n >>> 56) % 256, (n >>> 48) % 256, (n >>> 40) % 256, (n >>> 32) % 256,
   (n >>> 24) % 256, (n >>> 16) % 256, (n >>> 8) % 256, n % 256]

/-- SHA-256 message padding: append 0x80, zero bytes, then the 64-bit
bit length, reaching a multiple of 64 bytes. -/
def sha256Pad (msg : List ℕ) : List ℕ :=
  let len := msg.length
  let padLen := (119 - len % 64) % 64
  msg ++ [128] ++ List.replicate padLen 0 ++ beBytes8 (len * 8)

/-- Split a byte list into 64-byte blocks. -/
def chunks64 : List ℕ → List (List ℕ)
  | [] => []
  | x :: xs => (x :: xs).take 64 :: chunks64 ((x :: xs).drop 64)
termination_by l => l.length
decreasing_by
  simp only [List.length_drop, List.length_cons]
  omega

/-- Big-endian 32-bit words from bytes. -/
def beWords : List ℕ → List ℕ
  | b0 :: b1 :: b2 :: b3 :: rest =>
      (b0 * 16777216 + b1 * 65536 + b2 * 256 + b3) :: beWords rest
  | _ => []

/-- Message-schedule extension from 16 to 64 words. -/
def sha256Extend (ws : List ℕ) : List ℕ :=
  (List.range 48).foldl
    (fun acc _ =>
      let n := acc.length
      let x15 := acc.getD (n - 15) 0
      let x2 := acc.getD (n - 2) 0
      let s0 := (rotr 7 x15) ^^^ (rotr 18 x15) ^^^ (x15 >>> 3)
      let s1 := (rotr 17 x2) ^^^ (rotr 19 x2) ^^^ (x2 >>> 10)
      acc ++ [w32 (acc.getD (n - 16) 0 + s0 + acc.getD (n - 7) 0 + s1)])
    ws

/-- One SHA-256 compression step. -/
def sha256Round (st : List ℕ) (kw : ℕ × ℕ) : List ℕ :=
  let a := st.getD 0 0
  let b := st.getD 1 0
  let c := st.getD 2 0
  let d := st.getD 3 0
  let e := st.getD 4 0
  let f := st.getD 5 0
  let g := st.getD 6 0
  let h := st.getD 7 0
  let s1 := (rotr 6 e) ^^^ (rotr 11 e) ^^^ (rotr 25 e)
  let ch := (e &&& f) ^^^ ((4294967295 - e) &&& g)
  let t1 := w32 (h + s1 + ch + kw.1 + kw.2)
  let s0 := (rotr 2 a) ^^^ (rotr 13 a) ^^^ (rotr 22 a)
  let mj := (a &&& b) ^^^ (a &&& c) ^^^ (b &&& c)
  let t2 := w32 (s0 + mj)
  [w32 (t1 + t2), a, b, c, w32 (d + t1), e, f, g]

/-- Process one 64-byte block into the running hash state. -/
def sha256Block (hs : List ℕ) (block : List ℕ) : List ℕ :=
  let ws := sha256Extend (beWords block)
  let st := (sha256K.zip ws).foldl sha256Round hs
  (hs.zip st).map (fun p => w32 (p.1 + p.2))

/-- SHA-256 digest of a byte list, as the list of 8 state words. -/
def sha256Words (msg : List ℕ) : List ℕ :=
  (chunks64 (sha256Pad msg)).foldl sha256Block sha256H0

/-- Hexadecimal digit. -/
def hexChar (n : ℕ) : Char := ("0123456789abcdef".data).getD n '0'

/-- Lowercase 8-hex-digit rendering of a 32-bit word. -/
def hex8 (n : ℕ) : List Char :=
  (List.range 8).map (fun i => hexChar ((n >>> (28 - 4 * i)) % 16))

/-- hashlib.sha256(bytes).hexdigest(): 64 lowercase hex characters. -/
def sha256Hex (msg : List ℕ) : String :=
  String.mk ((sha256Words msg).flatMap hex8)

/-- UTF-8 encoding of one character (str.encode()). -/
def utf8Char (c : Char) : List ℕ :=
  let n := c.toNat
  if n < 128 then [n]
  else if n < 2048 then [192 + n / 64, 128 + n % 64]
  else if n < 65536 then [224 + n / 4096, 128 + (n / 64) % 64, 128 + n % 64]
  else [240 + n / 262144, 128 + (n / 4096) % 64, 128 + (n / 64) % 64,
        128 + n % 64]

/-- UTF-8 encoding of a string. -/
def utf8Bytes (s : String) : List ℕ := s.data.flatMap utf8Char

/-- scan.py create_design_fingerprint: join the hash strings with no
separator, UTF-8 encode, and take the SHA-256 hex digest. -/
def create_design_fingerprint (hashes : List String) : String :=
  sha256Hex (utf8Bytes (String.join hashes))

/-- C10: create_design_fingerprint joins its input hash strings with no
separator before hashing, so any two tuples of hash strings with equal
plain concatenations receive equal fingerprints; in particular the two
distinct hash tuples given here collide without any SHA-256 collision. -/
theorem claim10_boundary_free_concat :
    (∀ l1 l2 : List String, String.join l1 = String.join l2 →
      create_design_fingerprint l1 = create_design_fingerprint l2) ∧
    (["ab", "", "", "", "", ""] : List String) ≠ ["a", "b", "", "", "", ""] ∧
    create_design_fingerprint ["ab", "", "", "", "", ""] =
      create_design_fingerprint ["a", "b", "", "", "", ""] := by
  refine ⟨fun l1 l2 h => by unfold create_design_fingerprint; rw [h], ?_, ?_⟩
  · decide
  · unfold create_design_fingerprint
    have h : String.join ["ab", "", "", "", "", ""] =
        String.join ["a", "b", "", "", "", ""] := by decide
    rw [h]

/-- Witness for C10: the concatenation-equality hypothesis is discharged
on the concrete colliding tuples. -/
theorem claim10_boundary_free_concat_witness :
    create_design_fingerprint ["ab", "", "", "", "", ""] =
      create_design_fingerprint ["a", "b", "", "", "", ""] :=
  claim10_boundary_free_concat.1 ["ab", "", "", "", "", ""]
    ["a", "b", "", "", "", ""] (by decide)

/-! ## Pixel grids and grayscale conversion -/

/-- Canonical uint8 RGB pixel grid (numpy array after pil_to_np): a total
function on integer coordinates; the engines only read rows 0..h-1 and
columns 0..w-1. -/
abbrev RGB8 : Type := ℤ → ℤ → ℕ × ℕ × ℕ

/-- Grayscale float image. -/
abbrev GrayQ : Type := ℤ → ℤ → ℚ

/-- skimage.color.rgb2gray on a uint8 RGB array: img_as_float divides by
255, then the luminance weights 0.2125, 0.7154, 0.0721 are applied. -/
def rgb2gray (img : RGB8) : GrayQ := fun i j =>
  (2125 * ((img i j).1 : ℚ) + 7154 * ((img i j).2.1 : ℚ) +
    721 * ((img i j).2.2 : ℚ)) / 10000 / 255

/-- cv2.cvtColor(img, COLOR_RGB2GRAY): luminance weights 0.299, 0.587,
0.114, rounded back to uint8. -/
def grayCV (img : RGB8) : ℤ → ℤ → ℕ := fun i j =>
  (round ((299 * ((img i j).1 : ℚ) + 587 * ((img i j).2.1 : ℚ) +
    114 * ((img i j).2.2 : ℚ)) / 1000)).toNat

/-! ## SSIM (skimage.metrics.structural_similarity, win_size 7, uniform
filter, K1 = 0.01, K2 = 0.03, sample covariance). The NaN produced by a
vanishing denominator (data_range 0) is modelled as none. -/

/-- Offsets of one 7x7 uniform-filter window. -/
def winIdx : Finset (ℕ × ℕ) := Finset.range 7 ×ˢ Finset.range 7

/-- Sum of a grayscale image over the 7x7 window centred at (i, j). -/
def winSum (f : GrayQ) (i j : ℤ) : ℚ :=
  ∑ p in winIdx, f (i + p.1 - 3) (j + p.2 - 3)

/-- Windowed mean (uniform_filter of size 7). -/
def winMean (f : GrayQ) (i j : ℤ) : ℚ := winSum f i j / 49

/-- Windowed sample covariance: cov_norm = NP/(NP-1) = 49/48 times the
filtered product minus product of filtered means. -/
def covWin (f g : GrayQ) (i j : ℤ) : ℚ :=
  (49 / 48) * (winMean (fun a b => f a b * g a b) i j -
    winMean f i j * winMean g i j)

/-- Local SSIM value at one pixel: S = (A1 A2)/(B1 B2); a vanishing
denominator is NaN (none). -/
def ssimAt (X Y : GrayQ) (C1 C2 : ℚ) (i j : ℤ) : Option ℚ :=
  let ux := winMean X i j
  let uy := winMean Y i j
  let vx := covWin X X i j
  let vy := covWin Y Y i j
  let vxy := covWin X Y i j
  let A1 := 2 * ux * uy + C1
  let A2 := 2 * vxy + C2
  let B1 := ux ^ 2 + uy ^ 2 + C1
  let B2 := vx + vy + C2
  if B1 * B2 = 0 then none else some (A1 * A2 / (B1 * B2))

/-- Interior positions kept by crop(S, (win_size-1)//2 = 3): offset (a, b)
indexes the window centred at (3+a, 3+b). -/
def cropIdx (h w : ℕ) : Finset (ℕ × ℕ) :=
  Finset.range (h - 6) ×ˢ Finset.range (w - 6)

/-- Mean SSIM over the cropped frame, with C1 = (K1 R)^2, C2 = (K2 R)^2
from the data_range R; none (NaN) as soon as one local value is NaN. -/
def mssim (h w : ℕ) (X Y : GrayQ) (R : ℚ) : Option ℚ :=
  let C1 := (R / 100) ^ 2
  let C2 := (3 * R / 100) ^ 2
  if ∀ p ∈ cropIdx h w, (ssimAt X Y C1 C2 (3 + p.1) (3 + p.2)).isSome = true
  then some ((∑ p in cropIdx h w,
      (ssimAt X Y C1 C2 (3 + p.1) (3 + p.2)).getD 0) / ((cropIdx h w).card : ℚ))
  else none

/-- Maximum of a list of rationals (np.max over a flattened array). -/
def listMax : List ℚ → ℚ
  | [] => 0
  | x :: xs => xs.foldl max x

/-- Minimum of a list of rationals (np.min). -/
def listMin : List ℚ → ℚ
  | [] => 0
  | x :: xs => xs.foldl min x

/-- Row-major list of the grayscale values of the h x w frame. -/
def gridVals (h w : ℕ) (g : GrayQ) : List ℚ :=
  (List.range h).flatMap
    (fun i : ℕ => (List.range w).map (fun j : ℕ => g (i : ℤ) (j : ℤ)))

/-- g.max() - g.min() over the frame: the data_range that compute_ssim
derives from its second argument. -/
def grayRange (h w : ℕ) (g : GrayQ) : ℚ :=
  listMax (gridVals h w g) - listMin (gridVals h w g)

/-- Map over Option, modelling float arithmetic where none is NaN. -/
def clipO (o : Option ℚ) (lo hi : ℚ) : Option ℚ := o.map (fun q => clipQ q lo hi)

/-- compare.py compute_ssim: both images to grayscale, SSIM with
data_range taken from the second image only, output clipped to [-1, 1]. -/
def compute_ssim (h w : ℕ) (a b : RGB8) : Option ℚ :=
  let g1 := rgb2gray a
  let g2 := rgb2gray b
  clipO (mssim h w g1 g2 (grayRange h w g2)) (-1) 1

/-! ## Window and range lemmas -/

lemma card_winIdx : winIdx.card = 49 := by decide

lemma winMean_const (c : ℚ) (i j : ℤ) : winMean (fun _ _ => c) i j = c := by
  unfold winMean winSum
  rw [Finset.sum_const, card_winIdx, nsmul_eq_mul]
  norm_num

lemma winMean_nonneg {f : GrayQ} (hf : ∀ a b, 0 ≤ f a b) (i j : ℤ) :
    0 ≤ winMean f i j := by
  unfold winMean winSum
  have h : 0 ≤ ∑ p in winIdx, f (i + p.1 - 3) (j + p.2 - 3) :=
    Finset.sum_nonneg (fun p _ => hf _ _)
  positivity

lemma winMean_smul (c : ℚ) (g : GrayQ) (i j : ℤ) :
    winMean (fun a b => c * g a b) i j = c * winMean g i j := by
  unfold winMean winSum
  rw [← Finset.mul_sum]
  ring

lemma covWin_const_left (c : ℚ) (g : GrayQ) (i j : ℤ) :
    covWin (fun _ _ => c) g i j = 0 := by
  unfold covWin
  rw [winMean_const]
  have h : winMean (fun a b => c * g a b) i j = c * winMean g i j :=
    winMean_smul c g i j
  rw [h]
  ring

lemma covWin_self_eq (f : GrayQ) (i j : ℤ) :
    covWin f f i j =
      (∑ p in winIdx,
        (f (i + p.1 - 3) (j + p.2 - 3) - winMean f i j) *
          (f (i + p.1 - 3) (j + p.2 - 3) - winMean f i j)) / 48 := by
  have hexp : ∀ p ∈ winIdx,
      (f (i + p.1 - 3) (j + p.2 - 3) - winMean f i j) *
        (f (i + p.1 - 3) (j + p.2 - 3) - winMean f i j) =
      f (i + p.1 - 3) (j + p.2 - 3) * f (i + p.1 - 3) (j + p.2 - 3) -
        (2 * winMean f i j) * f (i + p.1 - 3) (j + p.2 - 3) +
        winMean f i j * winMean f i j := fun p _ => by ring
  rw [Finset.sum_congr rfl hexp, Finset.sum_add_distrib, Finset.sum_sub_distrib,
    ← Finset.mul_sum, Finset.sum_const, card_winIdx, nsmul_eq_mul]
  have hS : ∑ p in winIdx, f (i + p.1 - 3) (j + p.2 - 3) = 49 * winMean f i j := by
    unfold winMean winSum; ring
  rw [hS]
  unfold covWin winMean winSum
  ring

lemma covWin_self_nonneg (f : GrayQ) (i j : ℤ) : 0 ≤ covWin f f i j := by
  rw [covWin_self_eq]
  have h : 0 ≤ ∑ p in winIdx,
      (f (i + p.1 - 3) (j + p.2 - 3) - winMean f i j) *
        (f (i + p.1 - 3) (j + p.2 - 3) - winMean f i j) :=
    Finset.sum_nonneg (fun p _ => mul_self_nonneg _)
  positivity

lemma covWin_self_pos {f : GrayQ} {i j : ℤ} {p q : ℕ × ℕ}
    (hp : p ∈ winIdx) (hq : q ∈ winIdx)
    (hne : f (i + p.1 - 3) (j + p.2 - 3) ≠ f (i + q.1 - 3) (j + q.2 - 3)) :
    0 < covWin f f i j := by
  rw [covWin_self_eq]
  have hpos : 0 < ∑ r in winIdx,
      (f (i + r.1 - 3) (j + r.2 - 3) - winMean f i j) *
        (f (i + r.1 - 3) (j + r.2 - 3) - winMean f i j) := by
    apply Finset.sum_pos' (fun r _ => mul_self_nonneg _)
    by_cases hc : f (i + p.1 - 3) (j + p.2 - 3) = winMean f i j
    · refine ⟨q, hq, ?_⟩
      have hqc : f (i + q.1 - 3) (j + q.2 - 3) - winMean f i j ≠ 0 := by
        intro h0
        exact hne (by rw [hc]; linarith [sub_eq_zero.mp h0])
      exact mul_self_pos.mpr hqc
    · refine ⟨p, hp, ?_⟩
      have hpc : f (i + p.1 - 3) (j + p.2 - 3) - winMean f i j ≠ 0 :=
        sub_ne_zero.mpr hc
      exact mul_self_pos.mpr hpc
  exact div_pos hpos (by norm_num)

/-! ## ssimAt and mssim lemmas -/

lemma ssimAt_self {X : GrayQ} {C1 C2 : ℚ} (h1 : 0 < C1) (h2 : 0 < C2)
    (i j : ℤ) : ssimAt X X C1 C2 i j = some 1 := by
  unfold ssimAt
  have hvx : 0 ≤ covWin X X i j := covWin_self_nonneg X i j
  have hB1 : 0 < winMean X i j ^ 2 + winMean X i j ^ 2 + C1 := by positivity
  have hB2 : 0 < covWin X X i j + covWin X X i j + C2 := by positivity
  have hne : (winMean X i j ^ 2 + winMean X i j ^ 2 + C1) *
      (covWin X X i j + covWin X X i j + C2) ≠ 0 := by positivity
  simp only [if_neg hne]
  congr 1
  rw [div_eq_one_iff_eq hne]
  ring

lemma card_cropIdx (h w : ℕ) : (cropIdx h w).card = (h - 6) * (w - 6) := by
  unfold cropIdx
  rw [Finset.card_product, Finset.card_range, Finset.card_range]

lemma mssim_self {X : GrayQ} {R : ℚ} {h w : ℕ} (hR : 0 < R)
    (hh : 7 ≤ h) (hw : 7 ≤ w) : mssim h w X X R = some 1 := by
  have h1 : 0 < (R / 100) ^ 2 := by positivity
  have h2 : 0 < (3 * R / 100) ^ 2 := by positivity
  unfold mssim
  have hall : ∀ p ∈ cropIdx h w,
      (ssimAt X X ((R / 100) ^ 2) ((3 * R / 100) ^ 2)
        (3 + p.1) (3 + p.2)).isSome = true := by
    intro p _
    rw [ssimAt_self h1 h2]
    rfl
  rw [if_pos hall]
  have hsum : ∑ p in cropIdx h w,
      (ssimAt X X ((R / 100) ^ 2) ((3 * R / 100) ^ 2)
        (3 + p.1) (3 + p.2)).getD 0 = ((cropIdx h w).card : ℚ) := by
    have he : ∀ p ∈ cropIdx h w,
        (ssimAt X X ((R / 100) ^ 2) ((3 * R / 100) ^ 2)
          (3 + (p.1 : ℤ)) (3 + (p.2 : ℤ))).getD 0 = 1 := by
      intro p _
      rw [ssimAt_self h1 h2]
      rfl
    rw [Finset.sum_congr rfl he, Finset.sum_const, nsmul_eq_mul, mul_one]
  rw [hsum]
  have hcard : ((cropIdx h w).card : ℚ) ≠ 0 := by
    rw [card_cropIdx]
    have : 0 < (h - 6) * (w - 6) := Nat.mul_pos (by omega) (by omega)
    exact_mod_cast Nat.pos_iff_ne_zero.mp this
  rw [div_self hcard]

lemma ssimAt_const (c C1 : ℚ) (i j : ℤ) :
    ssimAt (fun _ _ => c) (fun _ _ => c) C1 0 i j = none := by
  unfold ssimAt
  rw [covWin_const_left]
  norm_num

lemma mssim_const_none {h w : ℕ} (hh : 7 ≤ h) (hw : 7 ≤ w) (c : ℚ) :
    mssim h w (fun _ _ => c) (fun _ _ => c) 0 = none := by
  unfold mssim
  rw [if_neg]
  intro hall
  have hmem : ((0 : ℕ), (0 : ℕ)) ∈ cropIdx h w := by
    unfold cropIdx
    simp only [Finset.mem_product, Finset.mem_range]
    omega
  have h0 := hall ((0 : ℕ), (0 : ℕ)) hmem
  have hz : ((3 * (0 : ℚ) / 100) ^ 2) = 0 := by norm_num
  rw [hz, ssimAt_const] at h0
  simp at h0

/-! ## List max and min lemmas (np.max, np.min) -/

lemma le_foldl_max (l : List ℚ) : ∀ b : ℚ, b ≤ l.foldl max b := by
  induction l with
  | nil => intro b; simp
  | cons y ys ih =>
      intro b
      exact le_trans (le_max_left b y) (ih (max b y))

lemma mem_le_foldl_max {x : ℚ} {l : List ℚ} (hx : x ∈ l) :
    ∀ b : ℚ, x ≤ l.foldl max b := by
  induction l with
  | nil => cases hx
  | cons y ys ih =>
      intro b
      rcases List.mem_cons.mp hx with h | h
      · subst h
        exact le_trans (le_max_right b x) (le_foldl_max ys (max b x))
      · exact ih h (max b y)

lemma foldl_min_le (l : List ℚ) : ∀ b : ℚ, l.foldl min b ≤ b := by
  induction l with
  | nil => intro b; simp
  | cons y ys ih =>
      intro b
      exact le_trans (ih (min b y)) (min_le_left b y)

lemma foldl_min_le_mem {x : ℚ} {l : List ℚ} (hx : x ∈ l) :
    ∀ b : ℚ, l.foldl min b ≤ x := by
  induction l with
  | nil => cases hx
  | cons y ys ih =>
      intro b
      rcases List.mem_cons.mp hx with h | h
      · subst h
        exact le_trans (foldl_min_le ys (min b x)) (min_le_right b x)
      · exact ih h (min b y)

lemma le_listMax {x : ℚ} {l : List ℚ} (hx : x ∈ l) : x ≤ listMax l := by
  cases l with
  | nil => cases hx
  | cons y ys =>
      unfold listMax
      rcases List.mem_cons.mp hx with h | h
      · subst h; exact le_foldl_max ys x
      · exact mem_le_foldl_max h y

lemma listMin_le {x : ℚ} {l : List ℚ} (hx : x ∈ l) : listMin l ≤ x := by
  cases l with
  | nil => cases hx
  | cons y ys =>
      unfold listMin
      rcases List.mem_cons.mp hx with h | h
      · subst h; exact foldl_min_le ys x
      · exact foldl_min_le_mem h y

lemma mem_gridVals (g : GrayQ) {h w i j : ℕ} (hi : i < h) (hj : j < w) :
    g (i : ℤ) (j : ℤ) ∈ gridVals h w g := by
  have h2 : g (i : ℤ) (j : ℤ) ∈
      (List.range w).map (fun j' : ℕ => g (i : ℤ) (j' : ℤ)) :=
    List.mem_map.mpr ⟨j, List.mem_range.mpr hj, rfl⟩
  exact List.mem_flatMap.mpr ⟨i, List.mem_range.mpr hi, h2⟩

/-- Any two frame values bound the data range from below. -/
lemma sub_le_grayRange (g : GrayQ) {h w i j i' j' : ℕ}
    (hi : i < h) (hj : j < w) (hi' : i' < h) (hj' : j' < w) :
    g (i : ℤ) (j : ℤ) - g (i' : ℤ) (j' : ℤ) ≤ grayRange h w g := by
  unfold grayRange
  have h1 : g (i : ℤ) (j : ℤ) ≤ listMax (gridVals h w g) :=
    le_listMax (mem_gridVals g hi hj)
  have h2 : listMin (gridVals h w g) ≤ g (i' : ℤ) (j' : ℤ) :=
    listMin_le (mem_gridVals g hi' hj')
  linarith

lemma foldl_max_const (c : ℚ) (xs : List ℚ) (hxs : ∀ x ∈ xs, x = c) :
    xs.foldl max c = c := by
  induction xs with
  | nil => rfl
  | cons y ys ih =>
      have hy : y = c := hxs y (List.mem_cons_self y ys)
      have : ∀ x ∈ ys, x = c := fun x hx => hxs x (List.mem_cons_of_mem y hx)
      simp [hy, ih this]

lemma foldl_min_const (c : ℚ) (xs : List ℚ) (hxs : ∀ x ∈ xs, x = c) :
    xs.foldl min c = c := by
  induction xs with
  | nil => rfl
  | cons y ys ih =>
      have hy : y = c := hxs y (List.mem_cons_self y ys)
      have : ∀ x ∈ ys, x = c := fun x hx => hxs x (List.mem_cons_of_mem y hx)
      simp [hy, ih this]

lemma grayRange_const (h w : ℕ) (c : ℚ) :
    grayRange h w (fun _ _ => c) = 0 := by
  unfold grayRange
  have hall : ∀ y ∈ gridVals h w (fun _ _ => c), y = c := by
    intro y hy
    unfold gridVals at hy
    rw [List.mem_flatMap] at hy
    obtain ⟨i, _, hy⟩ := hy
    rw [List.mem_map] at hy
    obtain ⟨j, _, hy⟩ := hy
    exact hy.symm
  cases hgv : gridVals h w (fun _ _ => c) with
  | nil => simp [hgv, listMax, listMin]
  | cons x xs =>
      have hx : x = c := hall x (by rw [hgv]; exact List.mem_cons_self x xs)
      have hxs : ∀ y ∈ xs, y = c := fun y hy =>
        hall y (by rw [hgv]; exact List.mem_cons_of_mem x hy)
      have hmax : listMax (x :: xs) = c := by
        rw [hx]
        show xs.foldl max c = c
        exact foldl_max_const c xs hxs
      have hmin : listMin (x :: xs) = c := by
        rw [hx]
        show xs.foldl min c = c
        exact foldl_min_const c xs hxs
      rw [hmax, hmin, sub_self]

/-! ## PIL images and the perceptual-hash sub-score -/

/-- A decoded PIL image after convert RGB: dimensions, the format
attribute (None modelled as Option.none), and the pixel grid. -/
structure PILImage where
  width : ℕ
  height : ℕ
  format : Option String
  px : RGB8

/-- Hamming distance between two equal-length bit strings
(imagehash difference count). -/
def hammingBits (a b : List Bool) : ℕ :=
  ((a.zip b).filter (fun p => p.1 != p.2)).length

/-- compare.py compute_phash_similarity: imagehash.phash of both RGB
images (the DCT hash itself is the collaborator phashBits), Hamming
distance normalised by hash_size^2, score 1 - d, clipped to [0, 1]. -/
def compute_phash_similarity (phashSize : ℕ) (phashBits : PILImage → List Bool)
    (p1 p2 : PILImage) : ℚ :=
  let maxdist : ℚ := (phashSize : ℚ) * (phashSize : ℚ)
  let dist : ℚ := (hammingBits (phashBits p1) (phashBits p2) : ℚ)
  clipQ (1 - dist / maxdist) 0 1

lemma hammingBits_self (a : List Bool) : hammingBits a a = 0 := by
  unfold hammingBits
  induction a with
  | nil => rfl
  | cons x xs ih =>
      simp only [List.zip_cons_cons, List.filter_cons] at *
      simp [ih]

/-! ## ORB keypoint matching (compare.py compute_orb_match_ratio) -/

/-- A binary ORB descriptor, as its bit string. -/
abbrev Desc : Type := List Bool

/-- Index of the nearest descriptor under Hamming distance, first index
on ties (cv2 batch argmin). -/
def bestIdx (d : Desc) (ds : List Desc) : Option ℕ :=
  (List.range ds.length).argmin (fun j => hammingBits d (ds.getD j []))

/-- BFMatcher(NORM_HAMMING, crossCheck=True).match: pairs (i, j) such
that j is the best match of descriptor i and i is the best match of
descriptor j. -/
def crossMatches (d1 d2 : List Desc) : List (ℕ × ℕ) :=
  (List.range d1.length).filterMap (fun i =>
    match bestIdx (d1.getD i []) d2 with
    | none => none
    | some j => if bestIdx (d2.getD j []) d1 = some i then some (i, j) else none)

/-- Hamming distance of one accepted match. -/
def matchDist (d1 d2 : List Desc) (m : ℕ × ℕ) : ℕ :=
  hammingBits (d1.getD m.1 []) (d2.getD m.2 [])

/-- Ratio computation once both descriptor sets exist: sort the matches
by distance, keep the good ones (distance < 60), ratio good over
max(all, 1), clipped to [0, 1]. -/
def orbRatioCore (d1 d2 : List Desc) : ℚ :=
  let ms := (crossMatches d1 d2).mergeSort
    (fun m n => decide (matchDist d1 d2 m ≤ matchDist d1 d2 n))
  if ms.length = 0 then 0
  else
    let good := ms.filter (fun m => decide (matchDist d1 d2 m < 60))
    clipQ ((good.length : ℚ) / ((max ms.length 1 : ℕ) : ℚ)) 0 1

/-- compare.py compute_orb_match_ratio: detect descriptors on both
grayscale images (detector is the collaborator orbDetect, None when no
keypoints); 0 when either side has none; cross-checked Hamming matching,
0 when no matches; else the matches are sorted by distance, the good ones
are those with distance < 60, and the ratio good/all is clipped to [0,1]. -/
def compute_orb_match_ratio (orbDetect : (ℤ → ℤ → ℕ) → Option (List Desc))
    (a b : RGB8) : ℚ :=
  match orbDetect (grayCV a), orbDetect (grayCV b) with
  | some d1, some d2 => orbRatioCore d1 d2
  | _, _ => 0

/-! ## combined_similarity (compare.py) -/

/-- The breakdown dictionary: the ssim entry is Option-valued because the
structural score is the only one that can be NaN. -/
structure Breakdown where
  ssim : Option ℚ
  phash : ℚ
  orb : ℚ
deriving DecidableEq

/-- Result dictionary of combined_similarity. -/
structure SimilarityResult where
  score : Option ℚ
  breakdown : Breakdown
deriving DecidableEq

/-- compare.py combined_similarity: convert both PIL images to RGB,
resize both to np_size, compute the three sub-scores, combine them with
the configured weights, clip the total to [0, 1] and each reported
sub-score to [0, 1]. The raw (only [-1,1]-clipped) ssim value enters the
weighted sum; NaN propagates into the score. -/
def combined_similarity (w1 w2 w3 : ℚ) (phashSize : ℕ)
    (phashBits : PILImage → List Bool)
    (orbDetect : (ℤ → ℤ → ℕ) → Option (List Desc))
    (resizeLib : PILImage → ℕ → ℕ → RGB8)
    (h w : ℕ) (p1 p2 : PILImage) : SimilarityResult :=
  let i1 := resizeLib p1 h w
  let i2 := resizeLib p2 h w
  let ssim_score := compute_ssim h w i1 i2
  let phash_score := compute_phash_similarity phashSize phashBits p1 p2
  let orb_score := compute_orb_match_ratio orbDetect i1 i2
  { score := ssim_score.map
      (fun s => clipQ (w1 * s + w2 * phash_score + w3 * orb_score) 0 1),
    breakdown :=
      { ssim := ssim_score.map (fun s => clipQ s 0 1),
        phash := clipQ phash_score 0 1,
        orb := clipQ orb_score 0 1 } }

lemma rgb2gray_const (r g b : ℕ) :
    rgb2gray (fun _ _ => (r, g, b)) =
      fun _ _ => (2125 * (r : ℚ) + 7154 * (g : ℚ) + 721 * (b : ℚ)) / 10000 / 255 :=
  rfl

lemma clipQ_one_neg : clipQ 1 (-1) 1 = 1 := by
  norm_num [clipQ, max_def, min_def]

lemma clipQ_one : clipQ 1 0 1 = 1 := by
  norm_num [clipQ, max_def, min_def]

/-- C2 (amended): self-comparison yields structural sub-score exactly 1
and perceptual sub-score exactly 1 for every image whose canonical
grayscale is non-constant (positive data_range); the uniform image of the
original claim is excluded, see the counterexample. -/
theorem claim2_self_similarity (w1 w2 w3 : ℚ) (phashSize : ℕ)
    (phashBits : PILImage → List Bool)
    (orbDetect : (ℤ → ℤ → ℕ) → Option (List Desc))
    (resizeLib : PILImage → ℕ → ℕ → RGB8)
    (h w : ℕ) (I : PILImage) (hh : 7 ≤ h) (hw : 7 ≤ w)
    (hrange : 0 < grayRange h w (rgb2gray (resizeLib I h w))) :
    (combined_similarity w1 w2 w3 phashSize phashBits orbDetect resizeLib
      h w I I).breakdown.ssim = some 1 ∧
    (combined_similarity w1 w2 w3 phashSize phashBits orbDetect resizeLib
      h w I I).breakdown.phash = 1 := by
  have hm : mssim h w (rgb2gray (resizeLib I h w)) (rgb2gray (resizeLib I h w))
      (grayRange h w (rgb2gray (resizeLib I h w))) = some 1 :=
    mssim_self hrange hh hw
  constructor
  · simp only [combined_similarity, compute_ssim, clipO]
    rw [hm]
    simp only [Option.map_some']
    rw [clipQ_one_neg, clipQ_one]
  · simp only [combined_similarity, compute_phash_similarity]
    rw [hammingBits_self]
    norm_num [clipQ, max_def, min_def]

/-- C2 counterexample: the uniform solid-colour 512 x 512 image compared
to itself. Its grayscale is constant, so compute_ssim runs with
data_range 0, the SSIM denominator vanishes, and the structural
sub-score is NaN (none), not 1.0. The collaborators are instantiated
consistently with the libraries: LANCZOS resampling of a uniform image
is uniform, phash of identical inputs is identical, and ORB finds no
keypoints on a flat image. -/
theorem claim2_counterexample :
    (combined_similarity (1/2) (3/10) (1/5) 8 (fun _ => List.replicate 64 false)
      (fun _ => none) (fun p _ _ => p.px) 512 512
      ⟨512, 512, none, fun _ _ => (128, 128, 128)⟩
      ⟨512, 512, none, fun _ _ => (128, 128, 128)⟩).breakdown.ssim ≠ some 1 ∧
    (combined_similarity (1/2) (3/10) (1/5) 8 (fun _ => List.replicate 64 false)
      (fun _ => none) (fun p _ _ => p.px) 512 512
      ⟨512, 512, none, fun _ _ => (128, 128, 128)⟩
      ⟨512, 512, none, fun _ _ => (128, 128, 128)⟩).breakdown.ssim = none := by
  have hnone : (combined_similarity (1/2) (3/10) (1/5) 8
      (fun _ => List.replicate 64 false)
      (fun _ => none) (fun p _ _ => p.px) 512 512
      ⟨512, 512, none, fun _ _ => (128, 128, 128)⟩
      ⟨512, 512, none, fun _ _ => (128, 128, 128)⟩).breakdown.ssim = none := by
    simp only [combined_similarity, compute_ssim, clipO]
    rw [rgb2gray_const, grayRange_const,
      mssim_const_none (by norm_num) (by norm_num)]
    rfl
  exact ⟨by rw [hnone]; exact fun hc => Option.noConfusion hc, hnone⟩

/-- Test image for witnesses: a single bright pixel on black, 7 x 7. -/
def tImg : PILImage :=
  ⟨7, 7, none, fun i j => if i = 0 ∧ j = 0 then (255, 255, 255) else (0, 0, 0)⟩

lemma tImg_gray_zero_zero : rgb2gray tImg.px 0 0 = 1 := by
  norm_num [tImg, rgb2gray]

lemma tImg_gray_zero_one : rgb2gray tImg.px 0 1 = 0 := by
  norm_num [tImg, rgb2gray]

lemma tImg_range_pos : 0 < grayRange 7 7 (rgb2gray tImg.px) := by
  have hb := sub_le_grayRange (rgb2gray tImg.px)
    (show 0 < 7 by norm_num) (show 0 < 7 by norm_num)
    (show 0 < 7 by norm_num) (show 1 < 7 by norm_num)
  rw [show (((0 : ℕ) : ℤ)) = (0 : ℤ) by norm_num,
    show (((1 : ℕ) : ℤ)) = (1 : ℤ) by norm_num] at hb
  rw [tImg_gray_zero_zero, tImg_gray_zero_one] at hb
  linarith

/-- Witness for C2: the non-constancy hypothesis holds for the concrete
single-bright-pixel image. -/
theorem claim2_self_similarity_witness :
    (combined_similarity 1 1 1 8 (fun _ => []) (fun _ => none)
      (fun p _ _ => p.px) 7 7 tImg tImg).breakdown.ssim = some 1 ∧
    (combined_similarity 1 1 1 8 (fun _ => []) (fun _ => none)
      (fun p _ _ => p.px) 7 7 tImg tImg).breakdown.phash = 1 :=
  claim2_self_similarity 1 1 1 8 (fun _ => []) (fun _ => none)
    (fun p _ _ => p.px) 7 7 tImg (by norm_num) (by norm_num) tImg_range_pos

lemma ssimAt_isSome {X Y : GrayQ} {C1 C2 : ℚ} (h1 : 0 < C1) (h2 : 0 < C2)
    (i j : ℤ) : ∃ s, ssimAt X Y C1 C2 i j = some s := by
  unfold ssimAt
  have hvx := covWin_self_nonneg X i j
  have hvy := covWin_self_nonneg Y i j
  have hB1 : 0 < winMean X i j ^ 2 + winMean Y i j ^ 2 + C1 := by positivity
  have hB2 : 0 < covWin X X i j + covWin Y Y i j + C2 := by linarith
  rw [if_neg (by positivity)]
  exact ⟨_, rfl⟩

lemma mssim_isSome {h w : ℕ} {X Y : GrayQ} {R : ℚ} (hR : 0 < R) :
    ∃ s, mssim h w X Y R = some s := by
  have h1 : 0 < (R / 100) ^ 2 := by positivity
  have h2 : 0 < (3 * R / 100) ^ 2 := by positivity
  unfold mssim
  rw [if_pos]
  · exact ⟨_, rfl⟩
  · intro p _
    obtain ⟨s, hs⟩ := ssimAt_isSome h1 h2 (3 + (p.1 : ℤ)) (3 + (p.2 : ℤ))
    rw [hs]
    rfl

lemma clipQ_mem {lo hi : ℚ} (x : ℚ) (h : lo ≤ hi) :
    lo ≤ clipQ x lo hi ∧ clipQ x lo hi ≤ hi :=
  ⟨le_max_left lo _, max_le h (min_le_right x hi)⟩

/-- C4 (amended): whenever the structural sub-score is an actual number —
guaranteed as soon as the second image's canonical grayscale is
non-constant, so that data_range is positive — the composite score is
clip(w1*structural + w2*perceptual + w3*keypoint, 0, 1) with the raw
signed structural value in the weighted sum and the independently clipped
values in the breakdown, and the score and every breakdown component lie
in [0, 1]. When the structural score is NaN it propagates instead, see
the counterexample. -/
theorem claim4_score_bounds (w1 w2 w3 : ℚ) (phashSize : ℕ)
    (phashBits : PILImage → List Bool)
    (orbDetect : (ℤ → ℤ → ℕ) → Option (List Desc))
    (resizeLib : PILImage → ℕ → ℕ → RGB8)
    (h w : ℕ) (A B : PILImage)
    (hrange2 : 0 < grayRange h w (rgb2gray (resizeLib B h w))) :
    (∃ s : ℚ,
      compute_ssim h w (resizeLib A h w) (resizeLib B h w) = some s ∧
      (combined_similarity w1 w2 w3 phashSize phashBits orbDetect resizeLib
        h w A B).score = some (clipQ (w1 * s +
          w2 * compute_phash_similarity phashSize phashBits A B +
          w3 * compute_orb_match_ratio orbDetect (resizeLib A h w)
            (resizeLib B h w)) 0 1) ∧
      (combined_similarity w1 w2 w3 phashSize phashBits orbDetect resizeLib
        h w A B).breakdown.ssim = some (clipQ s 0 1)) ∧
    (∃ q : ℚ, (combined_similarity w1 w2 w3 phashSize phashBits orbDetect
      resizeLib h w A B).score = some q ∧ 0 ≤ q ∧ q ≤ 1) ∧
    (∃ q : ℚ, (combined_similarity w1 w2 w3 phashSize phashBits orbDetect
      resizeLib h w A B).breakdown.ssim = some q ∧ 0 ≤ q ∧ q ≤ 1) ∧
    (0 ≤ (combined_similarity w1 w2 w3 phashSize phashBits orbDetect
      resizeLib h w A B).breakdown.phash ∧
      (combined_similarity w1 w2 w3 phashSize phashBits orbDetect
        resizeLib h w A B).breakdown.phash ≤ 1) ∧
    (0 ≤ (combined_similarity w1 w2 w3 phashSize phashBits orbDetect
      resizeLib h w A B).breakdown.orb ∧
      (combined_similarity w1 w2 w3 phashSize phashBits orbDetect
        resizeLib h w A B).breakdown.orb ≤ 1) := by
  obtain ⟨m, hm⟩ := mssim_isSome (h := h) (w := w)
    (X := rgb2gray (resizeLib A h w)) (Y := rgb2gray (resizeLib B h w)) hrange2
  have hs : compute_ssim h w (resizeLib A h w) (resizeLib B h w) =
      some (clipQ m (-1) 1) := by
    simp only [compute_ssim, clipO]
    rw [hm]
    rfl
  have hscore : (combined_similarity w1 w2 w3 phashSize phashBits orbDetect
      resizeLib h w A B).score = some (clipQ (w1 * clipQ m (-1) 1 +
        w2 * compute_phash_similarity phashSize phashBits A B +
        w3 * compute_orb_match_ratio orbDetect (resizeLib A h w)
          (resizeLib B h w)) 0 1) := by
    simp only [combined_similarity]
    rw [hs]
    rfl
  have hbssim : (combined_similarity w1 w2 w3 phashSize phashBits orbDetect
      resizeLib h w A B).breakdown.ssim = some (clipQ (clipQ m (-1) 1) 0 1) := by
    simp only [combined_similarity]
    rw [hs]
    rfl
  have hbphash : (combined_similarity w1 w2 w3 phashSize phashBits orbDetect
      resizeLib h w A B).breakdown.phash =
      clipQ (compute_phash_similarity phashSize phashBits A B) 0 1 := by
    simp only [combined_similarity]
  have hborb : (combined_similarity w1 w2 w3 phashSize phashBits orbDetect
      resizeLib h w A B).breakdown.orb =
      clipQ (compute_orb_match_ratio orbDetect (resizeLib A h w)
        (resizeLib B h w)) 0 1 := by
    simp only [combined_similarity]
  refine ⟨⟨clipQ m (-1) 1, hs, hscore, hbssim⟩,
    ⟨_, hscore, clipQ_mem _ (by norm_num)⟩,
    ⟨_, hbssim, clipQ_mem _ (by norm_num)⟩, ?_, ?_⟩
  · rw [hbphash]
    exact clipQ_mem _ (by norm_num)
  · rw [hborb]
    exact clipQ_mem _ (by norm_num)

/-- C4 counterexample: comparing the uniform 512 x 512 image (pixel value
77) with itself makes the structural sub-score NaN (data_range 0), and
the NaN propagates through the weighted sum and np.clip: the score is
NaN, not a number in [0, 1]. -/
theorem claim4_counterexample :
    (combined_similarity (1/2) (3/10) (1/5) 8 (fun _ => List.replicate 64 false)
      (fun _ => none) (fun p _ _ => p.px) 512 512
      ⟨512, 512, none, fun _ _ => (77, 77, 77)⟩
      ⟨512, 512, none, fun _ _ => (77, 77, 77)⟩).score = none ∧
    ¬ ∃ q : ℚ,
      (combined_similarity (1/2) (3/10) (1/5) 8 (fun _ => List.replicate 64 false)
        (fun _ => none) (fun p _ _ => p.px) 512 512
        ⟨512, 512, none, fun _ _ => (77, 77, 77)⟩
        ⟨512, 512, none, fun _ _ => (77, 77, 77)⟩).score = some q ∧
      0 ≤ q ∧ q ≤ 1 := by
  have hnone : (combined_similarity (1/2) (3/10) (1/5) 8
      (fun _ => List.replicate 64 false)
      (fun _ => none) (fun p _ _ => p.px) 512 512
      ⟨512, 512, none, fun _ _ => (77, 77, 77)⟩
      ⟨512, 512, none, fun _ _ => (77, 77, 77)⟩).score = none := by
    simp only [combined_similarity, compute_ssim, clipO]
    rw [rgb2gray_const, grayRange_const,
      mssim_const_none (by norm_num) (by norm_num)]
    rfl
  refine ⟨hnone, ?_⟩
  rintro ⟨q, hq, -⟩
  rw [hnone] at hq
  exact Option.noConfusion hq

/-- Witness for C4: the non-constancy hypothesis discharged on the
single-bright-pixel 7 x 7 image compared with itself. -/
theorem claim4_score_bounds_witness :
    ∃ q : ℚ, (combined_similarity 1 1 1 8 (fun _ => []) (fun _ => none)
      (fun p _ _ => p.px) 7 7 tImg tImg).score = some q ∧ 0 ≤ q ∧ q ≤ 1 :=
  (claim4_score_bounds 1 1 1 8 (fun _ => []) (fun _ => none)
    (fun p _ _ => p.px) 7 7 tImg tImg tImg_range_pos).2.1

/-! ## Asymmetry of compute_ssim (C5): concrete images -/

/-- Uniform mid-gray 512 x 512 image. -/
def constImg128 : PILImage := ⟨512, 512, none, fun _ _ => (128, 128, 128)⟩

/-- Black/white checkerboard 512 x 512 image. -/
def checkerImg : PILImage :=
  ⟨512, 512, none, fun i j => if (i + j) % 2 = 0 then (0, 0, 0) else (255, 255, 255)⟩

/-- Grayscale of the checkerboard: 0 and 1 alternating. -/
def checkerG : GrayQ := fun i j => if (i + j) % 2 = 0 then 0 else 1

lemma rgb2gray_checker : rgb2gray checkerImg.px = checkerG := by
  funext i j
  simp only [rgb2gray, checkerImg, checkerG]
  by_cases hc : (i + j) % 2 = 0
  · norm_num [hc]
  · norm_num [hc]

lemma rgb2gray_const128 : rgb2gray constImg128.px = fun _ _ => (128 : ℚ) / 255 := by
  funext i j
  show (2125 * ((128:ℕ) : ℚ) + 7154 * ((128:ℕ) : ℚ) + 721 * ((128:ℕ) : ℚ))
      / 10000 / 255 = 128 / 255
  norm_num

lemma checkerG_nonneg : ∀ a b, 0 ≤ checkerG a b := by
  intro a b
  unfold checkerG
  split <;> norm_num

lemma checkerG_ne_right (a b : ℤ) : checkerG a b ≠ checkerG a (b + 1) := by
  unfold checkerG
  by_cases hp : (a + b) % 2 = 0
  · rw [if_pos hp, if_neg (by omega)]
    norm_num
  · rw [if_neg hp, if_pos (by omega)]
    norm_num

lemma checkerG_zero_zero : checkerG 0 0 = 0 := by norm_num [checkerG]

lemma checkerG_zero_one : checkerG 0 1 = 1 := by norm_num [checkerG]

lemma checker_range_pos : 0 < grayRange 512 512 checkerG := by
  have hb := sub_le_grayRange checkerG
    (show 0 < 512 by norm_num) (show 1 < 512 by norm_num)
    (show 0 < 512 by norm_num) (show 0 < 512 by norm_num)
  push_cast at hb
  rw [checkerG_zero_one, checkerG_zero_zero] at hb
  linarith

lemma ssimAt_const_left_pos {c : ℚ} (hc : 0 ≤ c) {Y : GrayQ}
    (hY : ∀ a b, 0 ≤ Y a b) {C1 C2 : ℚ} (h1 : 0 < C1) (h2 : 0 < C2)
    (i j : ℤ) : ∃ s, ssimAt (fun _ _ => c) Y C1 C2 i j = some s ∧ 0 < s := by
  have huy : 0 ≤ winMean Y i j := winMean_nonneg hY i j
  have hvy : 0 ≤ covWin Y Y i j := covWin_self_nonneg Y i j
  unfold ssimAt
  rw [winMean_const, covWin_const_left, covWin_const_left]
  have hB1 : 0 < c ^ 2 + winMean Y i j ^ 2 + C1 := by positivity
  have hB2 : 0 < 0 + covWin Y Y i j + C2 := by linarith
  have hA1 : 0 < 2 * c * winMean Y i j + C1 := by nlinarith
  have hA2 : 0 < 2 * 0 + C2 := by linarith
  rw [if_neg (mul_pos hB1 hB2).ne']
  exact ⟨_, rfl, div_pos (mul_pos hA1 hA2) (mul_pos hB1 hB2)⟩

lemma mssim_const_left_pos {h w : ℕ} (hh : 7 ≤ h) (hw : 7 ≤ w) {c : ℚ}
    (hc : 0 ≤ c) {Y : GrayQ} (hY : ∀ a b, 0 ≤ Y a b) {R : ℚ} (hR : 0 < R) :
    ∃ s, mssim h w (fun _ _ => c) Y R = some s ∧ 0 < s := by
  have h1 : 0 < (R / 100) ^ 2 := by positivity
  have h2 : 0 < (3 * R / 100) ^ 2 := by positivity
  unfold mssim
  have hall : ∀ p ∈ cropIdx h w,
      (ssimAt (fun _ _ => c) Y ((R / 100) ^ 2) ((3 * R / 100) ^ 2)
        (3 + (p.1 : ℤ)) (3 + (p.2 : ℤ))).isSome = true := by
    intro p _
    obtain ⟨s, hs, -⟩ := ssimAt_const_left_pos hc hY h1 h2
      (3 + (p.1 : ℤ)) (3 + (p.2 : ℤ))
    rw [hs]
    rfl
  rw [if_pos hall]
  refine ⟨_, rfl, div_pos ?_ ?_⟩
  · apply Finset.sum_pos
    · intro p _
      obtain ⟨s, hs, hpos⟩ := ssimAt_const_left_pos hc hY h1 h2
        (3 + (p.1 : ℤ)) (3 + (p.2 : ℤ))
      rw [hs]
      exact hpos
    · refine ⟨((0 : ℕ), (0 : ℕ)), ?_⟩
      unfold cropIdx
      simp only [Finset.mem_product, Finset.mem_range]
      omega
  · rw [card_cropIdx]
    have : 0 < (h - 6) * (w - 6) := Nat.mul_pos (by omega) (by omega)
    exact_mod_cast this

lemma winMean_smul_right (c : ℚ) (g : GrayQ) (i j : ℤ) :
    winMean (fun a b => g a b * c) i j = winMean g i j * c := by
  unfold winMean winSum
  rw [← Finset.sum_mul]
  ring

lemma covWin_const_right (c : ℚ) (g : GrayQ) (i j : ℤ) :
    covWin g (fun _ _ => c) i j = 0 := by
  unfold covWin
  rw [winMean_const, winMean_smul_right]
  ring

lemma ssimAt_dir2 {X : GrayQ} {c : ℚ} (hcne : c ≠ 0) {i j : ℤ}
    (hvx : 0 < covWin X X i j) :
    ssimAt X (fun _ _ => c) 0 0 i j = some 0 := by
  unfold ssimAt
  rw [winMean_const, covWin_const_left, covWin_const_right]
  have hc2 : 0 < c ^ 2 :=
    lt_of_le_of_ne (sq_nonneg c) (Ne.symm (pow_ne_zero 2 hcne))
  have hB1 : 0 < winMean X i j ^ 2 + c ^ 2 + 0 := by
    have := sq_nonneg (winMean X i j)
    linarith
  have hB2 : 0 < covWin X X i j + 0 + 0 := by linarith
  rw [if_neg (mul_pos hB1 hB2).ne']
  norm_num

lemma covWin_checker_pos (i j : ℤ) : 0 < covWin checkerG checkerG i j := by
  apply covWin_self_pos (p := ((0 : ℕ), (0 : ℕ))) (q := ((0 : ℕ), (1 : ℕ)))
  · decide
  · decide
  · have heq : j + (((1 : ℕ) : ℤ)) - 3 = (j + (((0 : ℕ) : ℤ)) - 3) + 1 := by
      push_cast
      ring
    rw [heq]
    exact checkerG_ne_right _ _

lemma mssim_checker_const_zero {h w : ℕ} {c : ℚ}
    (hcne : c ≠ 0) : mssim h w checkerG (fun _ _ => c) 0 = some 0 := by
  unfold mssim
  have hC1 : (((0 : ℚ)) / 100) ^ 2 = 0 := by norm_num
  have hC2 : (3 * ((0 : ℚ)) / 100) ^ 2 = 0 := by norm_num
  rw [hC1, hC2]
  have hall : ∀ p ∈ cropIdx h w,
      (ssimAt checkerG (fun _ _ => c) 0 0
        (3 + (p.1 : ℤ)) (3 + (p.2 : ℤ))).isSome = true := by
    intro p _
    rw [ssimAt_dir2 hcne (covWin_checker_pos _ _)]
    rfl
  rw [if_pos hall]
  have hz : ∀ p ∈ cropIdx h w,
      (ssimAt checkerG (fun _ _ => c) 0 0
        (3 + (p.1 : ℤ)) (3 + (p.2 : ℤ))).getD 0 = 0 := by
    intro p _
    rw [ssimAt_dir2 hcne (covWin_checker_pos _ _)]
    rfl
  rw [Finset.sum_congr rfl hz, Finset.sum_const, smul_zero, zero_div]

lemma clipQ_pos {x lo : ℚ} (hx : 0 < x) : 0 < clipQ x lo 1 :=
  lt_of_lt_of_le (lt_min hx one_pos) (le_max_right lo _)

/-- C5: compute_ssim grayscales both inputs but derives the SSIM
data_range from the second image's grayscale min and max only, clipping
the result to [-1, 1]; consequently compare is not symmetric: comparing
the uniform mid-gray image against the checkerboard gives a structural
sub-score that is defined and strictly positive, while the swapped
comparison runs with data_range 0 and returns structural 0, so the two
compare results differ. -/
theorem claim5_data_range_asymmetry :
    (∀ (h w : ℕ) (a b : RGB8), compute_ssim h w a b =
      clipO (mssim h w (rgb2gray a) (rgb2gray b)
        (grayRange h w (rgb2gray b))) (-1) 1) ∧
    combined_similarity 1 1 1 8 (fun _ => []) (fun _ => none)
      (fun p _ _ => p.px) 512 512 constImg128 checkerImg ≠
    combined_similarity 1 1 1 8 (fun _ => []) (fun _ => none)
      (fun p _ _ => p.px) 512 512 checkerImg constImg128 := by
  refine ⟨fun h w a b => rfl, ?_⟩
  obtain ⟨s, hs, hspos⟩ := mssim_const_left_pos (h := 512) (w := 512)
    (by norm_num) (by norm_num) (show (0 : ℚ) ≤ 128 / 255 by norm_num)
    checkerG_nonneg checker_range_pos
  have h1 : (combined_similarity 1 1 1 8 (fun _ => []) (fun _ => none)
      (fun p _ _ => p.px) 512 512 constImg128 checkerImg).breakdown.ssim =
      some (clipQ (clipQ s (-1) 1) 0 1) := by
    simp only [combined_similarity, compute_ssim, clipO]
    rw [rgb2gray_const128, rgb2gray_checker, hs]
    rfl
  have h2 : (combined_similarity 1 1 1 8 (fun _ => []) (fun _ => none)
      (fun p _ _ => p.px) 512 512 checkerImg constImg128).breakdown.ssim =
      some (clipQ (clipQ 0 (-1) 1) 0 1) := by
    simp only [combined_similarity, compute_ssim, clipO]
    rw [rgb2gray_const128, rgb2gray_checker, grayRange_const,
      mssim_checker_const_zero (show (128 : ℚ) / 255 ≠ 0 by norm_num)]
    rfl
  have hv2 : clipQ (clipQ 0 (-1) 1) 0 1 = 0 := by
    norm_num [clipQ, max_def, min_def]
  have hv1 : 0 < clipQ (clipQ s (-1) 1) 0 1 := clipQ_pos (clipQ_pos hspos)
  intro hEq
  have hproj := congrArg (fun r => r.breakdown.ssim) hEq
  simp only at hproj
  rw [h1, h2, hv2] at hproj
  have hval : clipQ (clipQ s (-1) 1) 0 1 = 0 := Option.some_injective ℚ hproj
  rw [hval] at hv1
  exact lt_irrefl 0 hv1

/-! ## C6: feature-match ratio rules -/

lemma orbRatioCore_nil {d1 d2 : List Desc} (hcm : crossMatches d1 d2 = []) :
    orbRatioCore d1 d2 = 0 := by
  unfold orbRatioCore
  rw [if_pos]
  rw [List.length_mergeSort, hcm]
  rfl

lemma orbRatioCore_ne_nil {d1 d2 : List Desc} (hcm : crossMatches d1 d2 ≠ []) :
    orbRatioCore d1 d2 =
      (((crossMatches d1 d2).filter
        (fun m => decide (matchDist d1 d2 m < 60))).length : ℚ) /
        ((crossMatches d1 d2).length : ℚ) ∧
    0 ≤ orbRatioCore d1 d2 ∧ orbRatioCore d1 d2 ≤ 1 := by
  have hperm : ((crossMatches d1 d2).mergeSort
      (fun m n => decide (matchDist d1 d2 m ≤ matchDist d1 d2 n))).Perm
      (crossMatches d1 d2) := List.mergeSort_perm _ _
  have hlen : ((crossMatches d1 d2).mergeSort
      (fun m n => decide (matchDist d1 d2 m ≤ matchDist d1 d2 n))).length =
      (crossMatches d1 d2).length := hperm.length_eq
  have hlenne : (crossMatches d1 d2).length ≠ 0 :=
    fun h0 => hcm (List.length_eq_zero.mp h0)
  have hflen : (((crossMatches d1 d2).mergeSort
      (fun m n => decide (matchDist d1 d2 m ≤ matchDist d1 d2 n))).filter
        (fun m => decide (matchDist d1 d2 m < 60))).length =
      ((crossMatches d1 d2).filter
        (fun m => decide (matchDist d1 d2 m < 60))).length :=
    (hperm.filter _).length_eq
  have hmax : max ((crossMatches d1 d2).length) 1 = (crossMatches d1 d2).length :=
    Nat.max_eq_left (Nat.one_le_iff_ne_zero.mpr hlenne)
  have hgle : ((crossMatches d1 d2).filter
      (fun m => decide (matchDist d1 d2 m < 60))).length ≤
      (crossMatches d1 d2).length := List.length_filter_le _ _
  have hpos : (0 : ℚ) < ((crossMatches d1 d2).length : ℚ) := by
    exact_mod_cast Nat.pos_iff_ne_zero.mpr hlenne
  have hr0 : (0 : ℚ) ≤ (((crossMatches d1 d2).filter
      (fun m => decide (matchDist d1 d2 m < 60))).length : ℚ) /
      ((crossMatches d1 d2).length : ℚ) := by positivity
  have hr1 : (((crossMatches d1 d2).filter
      (fun m => decide (matchDist d1 d2 m < 60))).length : ℚ) /
      ((crossMatches d1 d2).length : ℚ) ≤ 1 := by
    rw [div_le_one hpos]
    exact_mod_cast hgle
  have hcore : orbRatioCore d1 d2 =
      (((crossMatches d1 d2).filter
        (fun m => decide (matchDist d1 d2 m < 60))).length : ℚ) /
        ((crossMatches d1 d2).length : ℚ) := by
    simp only [orbRatioCore]
    rw [if_neg (by rw [hlen]; exact hlenne)]
    rw [hflen, hlen, hmax]
    unfold clipQ
    rw [min_eq_left hr1, max_eq_right hr0]
  exact ⟨hcore, by rw [hcore]; exact hr0, by rw [hcore]; exact hr1⟩

/-- C6: compute_feature_match_ratio returns 0 when either image yields no
descriptors; with descriptors on both sides and zero cross-checked
matches it returns 0; otherwise it returns the number of matches with
Hamming distance below 60 divided by the number of all matches, which
already lies in [0, 1] so the final clip is the identity. -/
theorem claim6_orb_match_rules (orbDetect : (ℤ → ℤ → ℕ) → Option (List Desc))
    (a b : RGB8) :
    (orbDetect (grayCV a) = none → compute_orb_match_ratio orbDetect a b = 0) ∧
    (orbDetect (grayCV b) = none → compute_orb_match_ratio orbDetect a b = 0) ∧
    (∀ d1 d2 : List Desc, orbDetect (grayCV a) = some d1 →
      orbDetect (grayCV b) = some d2 → crossMatches d1 d2 = [] →
      compute_orb_match_ratio orbDetect a b = 0) ∧
    (∀ d1 d2 : List Desc, orbDetect (grayCV a) = some d1 →
      orbDetect (grayCV b) = some d2 → crossMatches d1 d2 ≠ [] →
      compute_orb_match_ratio orbDetect a b =
        (((crossMatches d1 d2).filter
          (fun m => decide (matchDist d1 d2 m < 60))).length : ℚ) /
          ((crossMatches d1 d2).length : ℚ) ∧
      0 ≤ compute_orb_match_ratio orbDetect a b ∧
      compute_orb_match_ratio orbDetect a b ≤ 1) := by
  refine ⟨?_, ?_, ?_, ?_⟩
  · intro h
    unfold compute_orb_match_ratio
    rw [h]
  · intro h
    unfold compute_orb_match_ratio
    rw [h]
    cases orbDetect (grayCV a) <;> rfl
  · intro d1 d2 h1 h2 hcm
    have hred : compute_orb_match_ratio orbDetect a b = orbRatioCore d1 d2 := by
      unfold compute_orb_match_ratio
      rw [h1, h2]
    rw [hred]
    exact orbRatioCore_nil hcm
  · intro d1 d2 h1 h2 hcm
    have hred : compute_orb_match_ratio orbDetect a b = orbRatioCore d1 d2 := by
      unfold compute_orb_match_ratio
      rw [h1, h2]
    rw [hred]
    exact orbRatioCore_ne_nil hcm

/-- Witness for C6: a one-descriptor detector on both sides produces one
mutual match at distance 0, exercising the nonempty-match branch with
all hypotheses discharged concretely. -/
theorem claim6_orb_match_rules_witness :
    compute_orb_match_ratio (fun _ => some [[true]])
      (fun _ _ => (0, 0, 0)) (fun _ _ => (0, 0, 0)) =
      (((crossMatches [[true]] [[true]]).filter
        (fun m => decide (matchDist [[true]] [[true]] m < 60))).length : ℚ) /
        ((crossMatches [[true]] [[true]]).length : ℚ) :=
  ((claim6_orb_match_rules (fun _ => some [[true]])
    (fun _ _ => (0, 0, 0)) (fun _ _ => (0, 0, 0))).2.2.2
    [[true]] [[true]] rfl rfl (by decide)).1

/-! ## Edge features (scan.py extract_edge_features) -/

/-- The h x w index grid as integer coordinates. -/
def zGrid (h w : ℕ) : Finset (ℤ × ℤ) :=
  Finset.Icc 0 ((h : ℤ) - 1) ×ˢ Finset.Icc 0 ((w : ℤ) - 1)

lemma card_zGrid (h w : ℕ) : (zGrid h w).card = h * w := by
  unfold zGrid
  rw [Finset.card_product, Int.card_Icc, Int.card_Icc]
  have h1 : ((h : ℤ) - 1 + 1 - 0).toNat = h := by omega
  have h2 : ((w : ℤ) - 1 + 1 - 0).toNat = w := by omega
  rw [h1, h2]

/-- cv2 BORDER_REFLECT_101 index folding (for a 3x3 kernel overrun). -/
def reflect101 (n : ℕ) (i : ℤ) : ℤ :=
  if i < 0 then -i else if (n : ℤ) ≤ i then 2 * ((n : ℤ) - 1) - i else i

/-- cv2.Sobel(gray, CV_64F, 1, 0, ksize=3) at one pixel. -/
def sobelXAt (g : ℤ → ℤ → ℕ) (h w : ℕ) (i j : ℤ) : ℚ :=
  let v : ℤ → ℤ → ℚ :=
    fun di dj => ((g (reflect101 h (i + di)) (reflect101 w (j + dj)) : ℕ) : ℚ)
  (v (-1) 1 + 2 * v 0 1 + v 1 1) - (v (-1) (-1) + 2 * v 0 (-1) + v 1 (-1))

/-- cv2.Sobel(gray, CV_64F, 0, 1, ksize=3) at one pixel. -/
def sobelYAt (g : ℤ → ℤ → ℕ) (h w : ℕ) (i j : ℤ) : ℚ :=
  let v : ℤ → ℤ → ℚ :=
    fun di dj => ((g (reflect101 h (i + di)) (reflect101 w (j + dj)) : ℕ) : ℚ)
  (v 1 (-1) + 2 * v 1 0 + v 1 1) - (v (-1) (-1) + 2 * v (-1) 0 + v (-1) 1)

/-- edge_features dictionary of scan.py. -/
structure EdgeFeatures where
  edge_density_percentage : ℚ
  edge_strength : ℝ
  has_strong_edges : Bool

/-- scan.py extract_edge_features: Canny with fixed thresholds 100 and
200 (the detector itself is the collaborator canny), edge density =
fraction of nonzero edge pixels x 100 rounded to 2 decimals, edge
strength = mean of sqrt(gx^2 + gy^2) over the Sobel gradients, and
has_strong_edges = density > 5.0. -/
noncomputable def extract_edge_features
    (canny : ℕ → ℕ → (ℤ → ℤ → ℕ) → ℤ → ℤ → ℕ) (h w : ℕ) (img : RGB8) :
    EdgeFeatures :=
  let gray := grayCV img
  let edges := canny 100 200 gray
  let edgeCount := ((zGrid h w).filter (fun p => 0 < edges p.1 p.2)).card
  let density := pyRound2 ((edgeCount : ℚ) / ((h * w : ℕ) : ℚ) * 100)
  let strength := pyRound2R ((∑ p in zGrid h w,
      Real.sqrt (((sobelXAt gray h w p.1 p.2 : ℚ) : ℝ) ^ 2 +
        ((sobelYAt gray h w p.1 p.2 : ℚ) : ℝ) ^ 2)) / ((h * w : ℕ) : ℝ))
  { edge_density_percentage := density,
    edge_strength := strength,
    has_strong_edges := decide (5 < density) }

/-! ## Rounding lemmas -/

lemma round_mono_q {a b : ℚ} (hab : a ≤ b) : round a ≤ round b := by
  rw [round_eq, round_eq]
  exact Int.floor_mono (by linarith)

lemma pyRound2_nonneg {x : ℚ} (hx : 0 ≤ x) : 0 ≤ pyRound2 x := by
  unfold pyRound2
  have hr : (0 : ℤ) ≤ round (x * 100) := by
    rw [round_eq]
    have : (0 : ℚ) ≤ x * 100 + 1 / 2 := by linarith
    exact Int.floor_nonneg.mpr this
  have : (0 : ℚ) ≤ ((round (x * 100) : ℤ) : ℚ) := by exact_mod_cast hr
  linarith

lemma pyRound2_le_of_le {x y : ℚ} (hxy : x ≤ y) : pyRound2 x ≤ pyRound2 y := by
  unfold pyRound2
  have hr : round (x * 100) ≤ round (y * 100) := round_mono_q (by linarith)
  have : ((round (x * 100) : ℤ) : ℚ) ≤ ((round (y * 100) : ℤ) : ℚ) := by
    exact_mod_cast hr
  linarith

lemma pyRound2_hundred : pyRound2 100 = 100 := by
  unfold pyRound2
  have h1 : (100 : ℚ) * 100 = ((10000 : ℤ) : ℚ) := by norm_num
  rw [h1, round_intCast]
  norm_num

/-- C9: edge_density_percentage is the nonzero-pixel fraction of the
fixed-threshold (100, 200) Canny map times 100, rounded, and lies in
[0, 100]; has_strong_edges holds exactly when the reported density
exceeds 5.0; edge_strength is the rounded mean Sobel gradient magnitude
sqrt(gx^2 + gy^2). -/
theorem claim9_edge_features (canny : ℕ → ℕ → (ℤ → ℤ → ℕ) → ℤ → ℤ → ℕ)
    (h w : ℕ) (img : RGB8) (hh : 0 < h) (hw : 0 < w) :
    (extract_edge_features canny h w img).edge_density_percentage =
      pyRound2 (((((zGrid h w).filter
        (fun p => 0 < canny 100 200 (grayCV img) p.1 p.2)).card : ℕ) : ℚ) /
        ((h * w : ℕ) : ℚ) * 100) ∧
    0 ≤ (extract_edge_features canny h w img).edge_density_percentage ∧
    (extract_edge_features canny h w img).edge_density_percentage ≤ 100 ∧
    ((extract_edge_features canny h w img).has_strong_edges = true ↔
      5 < (extract_edge_features canny h w img).edge_density_percentage) ∧
    (extract_edge_features canny h w img).edge_strength =
      pyRound2R ((∑ p in zGrid h w,
        Real.sqrt (((sobelXAt (grayCV img) h w p.1 p.2 : ℚ) : ℝ) ^ 2 +
          ((sobelYAt (grayCV img) h w p.1 p.2 : ℚ) : ℝ) ^ 2)) /
        ((h * w : ℕ) : ℝ)) := by
  have hsize : (0 : ℚ) < ((h * w : ℕ) : ℚ) := by
    exact_mod_cast Nat.mul_pos hh hw
  have hcnt : (((zGrid h w).filter
      (fun p => 0 < canny 100 200 (grayCV img) p.1 p.2)).card : ℚ) ≤
      ((h * w : ℕ) : ℚ) := by
    have hle := Finset.card_filter_le (zGrid h w)
      (fun p => 0 < canny 100 200 (grayCV img) p.1 p.2)
    rw [card_zGrid] at hle
    exact_mod_cast hle
  have hratio0 : (0 : ℚ) ≤ (((zGrid h w).filter
      (fun p => 0 < canny 100 200 (grayCV img) p.1 p.2)).card : ℚ) /
      ((h * w : ℕ) : ℚ) * 100 := by positivity
  have hratio100 : (((zGrid h w).filter
      (fun p => 0 < canny 100 200 (grayCV img) p.1 p.2)).card : ℚ) /
      ((h * w : ℕ) : ℚ) * 100 ≤ 100 := by
    have hd1 : (((zGrid h w).filter
        (fun p => 0 < canny 100 200 (grayCV img) p.1 p.2)).card : ℚ) /
        ((h * w : ℕ) : ℚ) ≤ 1 := by
      rw [div_le_one hsize]
      exact hcnt
    linarith
  refine ⟨rfl, pyRound2_nonneg hratio0, ?_, ?_, rfl⟩
  · have := pyRound2_le_of_le hratio100
    rw [pyRound2_hundred] at this
    exact this
  · simp only [extract_edge_features, decide_eq_true_eq]

/-- Witness for C9: a trivial edge map on a 1 x 1 black image discharges
the positive-dimension hypotheses. -/
theorem claim9_edge_features_witness :
    0 ≤ (extract_edge_features (fun _ _ _ => fun _ _ => 0) 1 1
      (fun _ _ => (0, 0, 0))).edge_density_percentage ∧
    (extract_edge_features (fun _ _ _ => fun _ _ => 0) 1 1
      (fun _ _ => (0, 0, 0))).edge_density_percentage ≤ 100 :=
  ⟨(claim9_edge_features (fun _ _ _ => fun _ _ => 0) 1 1 (fun _ _ => (0, 0, 0))
      (by norm_num) (by norm_num)).2.1,
    (claim9_edge_features (fun _ _ _ => fun _ _ => 0) 1 1 (fun _ _ => (0, 0, 0))
      (by norm_num) (by norm_num)).2.2.1⟩

/-! ## Frequency features (scan.py extract_frequency_features) -/

/-- The centred 40 x 40 window sliced out of the shifted magnitude
spectrum: rows cy-20 .. cy+19 and columns cx-20 .. cx+19 with
cy = h // 2, cx = w // 2. -/
def lowRegion (h w : ℕ) : Finset (ℤ × ℤ) :=
  Finset.Icc (((h / 2 : ℕ) : ℤ) - 20) (((h / 2 : ℕ) : ℤ) + 19) ×ˢ
    Finset.Icc (((w / 2 : ℕ) : ℤ) - 20) (((w / 2 : ℕ) : ℤ) + 19)

/-- frequency_features dictionary of scan.py. -/
structure FreqFeatures where
  low_frequency_energy : ℝ
  high_frequency_energy : ℝ
  frequency_ratio : ℝ
  detail_level : String

open Classical in
/-- scan.py extract_frequency_features: the DC-centred FFT magnitude
spectrum of the grayscale frame is the collaborator magSpec (numpy
abs(fftshift(fft2)) is nonnegative by construction); low energy is the
centred 40 x 40 window sum, high energy the remaining total, ratio
high/(low + 1e-10) rounded to two decimals, and the categorical level is
derived from the rounded ratio. -/
noncomputable def extract_frequency_features
    (magSpec : (ℤ → ℤ → ℕ) → ℤ → ℤ → ℝ) (h w : ℕ) (img : RGB8) :
    FreqFeatures :=
  let gray := grayCV img
  let mag := magSpec gray
  let lowE := ∑ p in lowRegion h w, mag p.1 p.2
  let highE := (∑ p in zGrid h w, mag p.1 p.2) - lowE
  let ratio := pyRound2R (highE / (lowE + 1 / 10 ^ 10))
  { low_frequency_energy := pyRound2R lowE,
    high_frequency_energy := pyRound2R highE,
    frequency_ratio := ratio,
    detail_level :=
      if ratio > 3 / 2 then "high" else if ratio > 4 / 5 then "medium" else "low" }

lemma pyRound2R_nonneg {x : ℝ} (hx : 0 ≤ x) : 0 ≤ pyRound2R x := by
  unfold pyRound2R
  have hr : (0 : ℤ) ≤ round (x * 100) := by
    rw [round_eq]
    have : (0 : ℝ) ≤ x * 100 + 1 / 2 := by linarith
    exact Int.floor_nonneg.mpr this
  have : (0 : ℝ) ≤ ((round (x * 100) : ℤ) : ℝ) := by exact_mod_cast hr
  linarith

lemma lowRegion_subset_zGrid {h w : ℕ} (hh : 40 ≤ h) (hw : 40 ≤ w) :
    lowRegion h w ⊆ zGrid h w := by
  unfold lowRegion zGrid
  apply Finset.product_subset_product
  · exact Finset.Icc_subset_Icc (by omega) (by omega)
  · exact Finset.Icc_subset_Icc (by omega) (by omega)

open Classical in
/-- The categorical detail level is determined by the reported ratio. -/
lemma detailLevel_iffs (r : ℝ) :
    ((if r > 3 / 2 then "high" else if r > 4 / 5 then "medium" else "low") =
        "high" ↔ 3 / 2 < r) ∧
    ((if r > 3 / 2 then "high" else if r > 4 / 5 then "medium" else "low") =
        "medium" ↔ (4 / 5 < r ∧ r ≤ 3 / 2)) ∧
    ((if r > 3 / 2 then "high" else if r > 4 / 5 then "medium" else "low") =
        "low" ↔ r ≤ 4 / 5) := by
  by_cases h1 : r > 3 / 2
  · rw [if_pos h1]
    exact ⟨⟨fun _ => h1, fun _ => rfl⟩,
      ⟨fun hc => absurd hc (by decide), fun hc => absurd h1 (not_lt.mpr hc.2)⟩,
      ⟨fun hc => absurd hc (by decide),
        fun hc => absurd h1 (not_lt.mpr (le_trans hc (by norm_num)))⟩⟩
  · rw [if_neg h1]
    by_cases h2 : r > 4 / 5
    · rw [if_pos h2]
      exact ⟨⟨fun hc => absurd hc (by decide), fun hc => absurd hc h1⟩,
        ⟨fun _ => ⟨h2, not_lt.mp h1⟩, fun _ => rfl⟩,
        ⟨fun hc => absurd hc (by decide), fun hc => absurd h2 (not_lt.mpr hc)⟩⟩
    · rw [if_neg h2]
      exact ⟨⟨fun hc => absurd hc (by decide), fun hc => absurd hc h1⟩,
        ⟨fun hc => absurd hc (by decide), fun hc => absurd hc.1 h2⟩,
        ⟨fun _ => not_lt.mp h2, fun _ => rfl⟩⟩

/-- C8: low-frequency energy is the centred 40 x 40 window sum of the
magnitude spectrum, high-frequency energy is total minus low, the
reported frequency ratio high/(low + epsilon) is nonnegative, and
detail_level is high iff the reported ratio exceeds 1.5, medium iff it
lies in (0.8, 1.5], low otherwise. -/
theorem claim8_frequency_features (magSpec : (ℤ → ℤ → ℕ) → ℤ → ℤ → ℝ)
    (h w : ℕ) (img : RGB8) (hh : 40 ≤ h) (hw : 40 ≤ w)
    (hm : ∀ i j : ℤ, 0 ≤ magSpec (grayCV img) i j) :
    (extract_frequency_features magSpec h w img).low_frequency_energy =
      pyRound2R (∑ p in lowRegion h w, magSpec (grayCV img) p.1 p.2) ∧
    (extract_frequency_features magSpec h w img).high_frequency_energy =
      pyRound2R ((∑ p in zGrid h w, magSpec (grayCV img) p.1 p.2) -
        ∑ p in lowRegion h w, magSpec (grayCV img) p.1 p.2) ∧
    (extract_frequency_features magSpec h w img).frequency_ratio =
      pyRound2R (((∑ p in zGrid h w, magSpec (grayCV img) p.1 p.2) -
        ∑ p in lowRegion h w, magSpec (grayCV img) p.1 p.2) /
        ((∑ p in lowRegion h w, magSpec (grayCV img) p.1 p.2) + 1 / 10 ^ 10)) ∧
    0 ≤ (extract_frequency_features magSpec h w img).frequency_ratio ∧
    ((extract_frequency_features magSpec h w img).detail_level = "high" ↔
      3 / 2 < (extract_frequency_features magSpec h w img).frequency_ratio) ∧
    ((extract_frequency_features magSpec h w img).detail_level = "medium" ↔
      (4 / 5 < (extract_frequency_features magSpec h w img).frequency_ratio ∧
        (extract_frequency_features magSpec h w img).frequency_ratio ≤ 3 / 2)) ∧
    ((extract_frequency_features magSpec h w img).detail_level = "low" ↔
      (extract_frequency_features magSpec h w img).frequency_ratio ≤ 4 / 5) := by
  have hlow0 : (0 : ℝ) ≤ ∑ p in lowRegion h w, magSpec (grayCV img) p.1 p.2 :=
    Finset.sum_nonneg (fun p _ => hm _ _)
  have hsub : (∑ p in lowRegion h w, magSpec (grayCV img) p.1 p.2) ≤
      ∑ p in zGrid h w, magSpec (grayCV img) p.1 p.2 :=
    Finset.sum_le_sum_of_subset_of_nonneg (lowRegion_subset_zGrid hh hw)
      (fun p _ _ => hm _ _)
  have hratio0 : (0 : ℝ) ≤ ((∑ p in zGrid h w, magSpec (grayCV img) p.1 p.2) -
      ∑ p in lowRegion h w, magSpec (grayCV img) p.1 p.2) /
      ((∑ p in lowRegion h w, magSpec (grayCV img) p.1 p.2) + 1 / 10 ^ 10) := by
    apply div_nonneg (by linarith) (by positivity)
  refine ⟨rfl, rfl, rfl, pyRound2R_nonneg hratio0, ?_, ?_, ?_⟩ <;>
    simp only [extract_frequency_features]
  · exact (detailLevel_iffs _).1
  · exact (detailLevel_iffs _).2.1
  · exact (detailLevel_iffs _).2.2

/-- Witness for C8: the zero magnitude spectrum on a 40 x 40 black frame
discharges the dimension and nonnegativity hypotheses. -/
theorem claim8_frequency_features_witness :
    0 ≤ (extract_frequency_features (fun _ _ _ => 0) 40 40
      (fun _ _ => (0, 0, 0))).frequency_ratio :=
  (claim8_frequency_features (fun _ _ _ => 0) 40 40 (fun _ _ => (0, 0, 0))
    (by norm_num) (by norm_num) (fun _ _ => le_refl 0)).2.2.2.1

/-! ## Metadata extraction pipeline (scan.py extract_image_metadata and
scan_design_for_blockchain)

A Python exception is a PyErr carrying its class name, message, and the
traceback frames accumulated while it propagates; re-raising from a
stage function appends that stage's frame, which is how the structured
failure ends up naming the failing stage. The wall-clock reads
(datetime.utcnow) are explicit string/rational parameters. The six
numeric extraction stages are Except-valued collaborator functions: the
claims under test concern the all-or-nothing propagation glue around
them, and extract_edge_features and extract_frequency_features above are
the concrete embeddings of two of these stages. -/

/-- A propagating Python exception. -/
structure PyErr where
  etype : String
  msg : String
  trace : List String
deriving DecidableEq

/-- Traceback frame added when an exception escapes a stage function. -/
def pushFrame (name : String) (e : PyErr) : PyErr :=
  { e with trace := e.trace ++ [name] }

/-- Run one numbered extraction stage; a raise propagates tagged with
the stage's frame. -/
def runStage {α β : Type} (name : String) (f : α → Except PyErr β) (x : α) :
    Except PyErr β :=
  match f x with
  | Except.ok v => Except.ok v
  | Except.error e => Except.error (pushFrame name e)

/-- image_info dictionary. -/
structure ImageInfo where
  width : ℕ
  height : ℕ
  format : String
  mode : String
  total_pixels : ℕ
  aspect_ratio : ℚ
deriving DecidableEq

/-- hashes dictionary. -/
structure Hashes where
  perceptual_hash : String
  average_hash : String
  difference_hash : String
  wavelet_hash : String
  color_hash : String
  sha256 : String
  design_fingerprint : String
deriving DecidableEq

/-- scan_metadata dictionary (constants in the source). -/
structure ScanMeta where
  algorithm_version : String
  processing_resolution : String
  scan_type : String
  libraries_used : List String
deriving DecidableEq

def scanMetaV2 : ScanMeta :=
  { algorithm_version := "2.0.0",
    processing_resolution := "512x512",
    scan_type := "full_pixel_analysis",
    libraries_used := ["opencv-python-4.12.0", "scikit-image-0.24.0",
      "scipy-1.16.3", "ImageHash-4.3.2", "numpy-2.2.6"] }

/-- The FeatureMetadata record returned by extract_image_metadata,
polymorphic in the six stage payloads. -/
structure Metadata (C T O P E F : Type) where
  scan_timestamp : String
  image_info : ImageInfo
  hashes : Hashes
  color_analysis : C
  texture_features : T
  orb_features : O
  pixel_statistics : P
  edge_features : E
  frequency_features : F
  scan_metadata : ScanMeta

/-- img_np.tobytes(): row-major uint8 bytes of the canonical grid. -/
def tobytes (g : RGB8) (h w : ℕ) : List ℕ :=
  (List.range h).flatMap (fun i : ℕ => (List.range w).flatMap (fun j : ℕ =>
    [(g (i : ℤ) (j : ℤ)).1, (g (i : ℤ) (j : ℤ)).2.1, (g (i : ℤ) (j : ℤ)).2.2]))

/-- Everything extract_image_metadata computes before the final
timestamped dictionary is assembled. -/
structure ExtractParts (C T O P E F : Type) where
  width : ℕ
  height : ℕ
  fmt : String
  phash : String
  ahash : String
  dhash : String
  whash : String
  colorhash : String
  sha : String
  color : C
  texture : T
  orb : O
  pixel : P
  edge : E
  freq : F

/-- The staged body of extract_image_metadata: image info and the six
hash digests first (the five imagehash digests are collaborator
functions on the PIL image, sha256 is computed over the canonical
512 x 512 pixel bytes), then the six numeric stages in source order,
failing fast on the first raising stage. -/
def extractParts {C T O P E F : Type}
    (phashS ahashS dhashS whashS colorhashS : PILImage → String)
    (resizeLib : PILImage → ℕ → ℕ → RGB8)
    (colorStage : RGB8 → Except PyErr C) (textureStage : RGB8 → Except PyErr T)
    (orbStage : RGB8 → Except PyErr O) (pixelStage : RGB8 → Except PyErr P)
    (edgeStage : RGB8 → Except PyErr E) (freqStage : RGB8 → Except PyErr F)
    (img : PILImage) : Except PyErr (ExtractParts C T O P E F) :=
  let g := resizeLib img 512 512
  let phash := phashS img
  let ahash := ahashS img
  let dhash := dhashS img
  let whash := whashS img
  let colorhash := colorhashS img
  let sha := sha256Hex (tobytes g 512 512)
  (runStage ("extract_color_features") colorStage g).bind (fun color =>
  (runStage ("extract_texture_features") textureStage g).bind (fun texture =>
  (runStage ("extract_orb_features") orbStage g).bind (fun orb =>
  (runStage ("extract_pixel_statistics") pixelStage g).bind (fun pixel =>
  (runStage ("extract_edge_features") edgeStage g).bind (fun edge =>
  (runStage ("extract_frequency_features") freqStage g).bind (fun freq =>
  Except.ok
    { width := img.width, height := img.height,
      fmt := img.format.getD ("UNKNOWN"),
      phash := phash, ahash := ahash, dhash := dhash, whash := whash,
      colorhash := colorhash, sha := sha,
      color := color, texture := texture, orb := orb, pixel := pixel,
      edge := edge, freq := freq }))))))

/-- The final metadata dictionary, assembled with the single
datetime.utcnow() read. -/
def mkMetadata {C T O P E F : Type} (now : String)
    (p : ExtractParts C T O P E F) : Metadata C T O P E F :=
  { scan_timestamp := now ++ "Z",
    image_info :=
      { width := p.width, height := p.height, format := p.fmt, mode := "RGB",
        total_pixels := p.width * p.height,
        aspect_ratio := pyRound2 ((p.width : ℚ) / (p.height : ℚ)) },
    hashes :=
      { perceptual_hash := p.phash, average_hash := p.ahash,
        difference_hash := p.dhash, wavelet_hash := p.whash,
        color_hash := p.colorhash, sha256 := p.sha,
        design_fingerprint := create_design_fingerprint
          [p.phash, p.ahash, p.dhash, p.whash, p.colorhash, p.sha] },
    color_analysis := p.color, texture_features := p.texture,
    orb_features := p.orb, pixel_statistics := p.pixel,
    edge_features := p.edge, frequency_features := p.freq,
    scan_metadata := scanMetaV2 }

/-- scan.py extract_image_metadata. -/
def extract_image_metadata {C T O P E F : Type} (now : String)
    (phashS ahashS dhashS whashS colorhashS : PILImage → String)
    (resizeLib : PILImage → ℕ → ℕ → RGB8)
    (colorStage : RGB8 → Except PyErr C) (textureStage : RGB8 → Except PyErr T)
    (orbStage : RGB8 → Except PyErr O) (pixelStage : RGB8 → Except PyErr P)
    (edgeStage : RGB8 → Except PyErr E) (freqStage : RGB8 → Except PyErr F)
    (img : PILImage) : Except PyErr (Metadata C T O P E F) :=
  (extractParts phashS ahashS dhashS whashS colorhashS resizeLib colorStage
    textureStage orbStage pixelStage edgeStage freqStage img).map
    (mkMetadata now)

/-- Metadata with the wall-clock field blanked, to state determinism of
every other field. -/
def stripTimestamp {C T O P E F : Type} (m : Metadata C T O P E F) :
    Metadata C T O P E F :=
  { m with scan_timestamp := "" }

/-- Result dictionary of scan_design_for_blockchain; the success and
failure dictionaries of the source carry different keys, modelled as
Option-valued fields. -/
structure ScanResult (M : Type) where
  success : Bool
  design_id : Option String
  metadata : Option M
  scan_duration_seconds : ℚ
  message : String
  error_type : Option String
  error_message : Option String
  traceback_lines : List String
  error_timestamp : Option String

/-- scan.py scan_design_for_blockchain: decode the bytes (collaborator
loadImage, raising on malformed input), extract the metadata, and wrap
the result; any exception is caught and returned as the structured
failure dictionary with the elapsed time. -/
def scan_design_for_blockchain {C T O P E F : Type} (tStart tEnd : ℚ)
    (nowEnd now : String) (loadImage : List ℕ → Except PyErr PILImage)
    (phashS ahashS dhashS whashS colorhashS : PILImage → String)
    (resizeLib : PILImage → ℕ → ℕ → RGB8)
    (colorStage : RGB8 → Except PyErr C) (textureStage : RGB8 → Except PyErr T)
    (orbStage : RGB8 → Except PyErr O) (pixelStage : RGB8 → Except PyErr P)
    (edgeStage : RGB8 → Except PyErr E) (freqStage : RGB8 → Except PyErr F)
    (image_bytes : List ℕ) : ScanResult (Metadata C T O P E F) :=
  match (loadImage image_bytes).bind
      (extract_image_metadata now phashS ahashS dhashS whashS colorhashS
        resizeLib colorStage textureStage orbStage pixelStage edgeStage
        freqStage) with
  | Except.ok md =>
      { success := true,
        design_id := some md.hashes.design_fingerprint,
        metadata := some md,
        scan_duration_seconds := pyRound2 (tEnd - tStart),
        message := "Design scanned successfully. Ready for blockchain integration.",
        error_type := none, error_message := none,
        traceback_lines := [], error_timestamp := none }
  | Except.error e =>
      { success := false,
        design_id := none,
        metadata := none,
        scan_duration_seconds := pyRound2 (tEnd - tStart),
        message := "Scan failed - see error details",
        error_type := some e.etype, error_message := some e.msg,
        traceback_lines := e.trace,
        error_timestamp := some (nowEnd ++ "Z") }

/-- C1 (amended): extract_image_metadata is deterministic in every field
except scan_timestamp, which records the wall-clock time of the call:
two runs on the same image agree after blanking scan_timestamp, and in
particular produce the identical design fingerprint. -/
theorem claim1_determinism (C T O P E F : Type) (now1 now2 : String)
    (phashS ahashS dhashS whashS colorhashS : PILImage → String)
    (resizeLib : PILImage → ℕ → ℕ → RGB8)
    (colorStage : RGB8 → Except PyErr C) (textureStage : RGB8 → Except PyErr T)
    (orbStage : RGB8 → Except PyErr O) (pixelStage : RGB8 → Except PyErr P)
    (edgeStage : RGB8 → Except PyErr E) (freqStage : RGB8 → Except PyErr F)
    (img : PILImage) :
    (extract_image_metadata now1 phashS ahashS dhashS whashS colorhashS
      resizeLib colorStage textureStage orbStage pixelStage edgeStage
      freqStage img).map stripTimestamp =
    (extract_image_metadata now2 phashS ahashS dhashS whashS colorhashS
      resizeLib colorStage textureStage orbStage pixelStage edgeStage
      freqStage img).map stripTimestamp ∧
    (extract_image_metadata now1 phashS ahashS dhashS whashS colorhashS
      resizeLib colorStage textureStage orbStage pixelStage edgeStage
      freqStage img).map (fun md => md.hashes.design_fingerprint) =
    (extract_image_metadata now2 phashS ahashS dhashS whashS colorhashS
      resizeLib colorStage textureStage orbStage pixelStage edgeStage
      freqStage img).map (fun md => md.hashes.design_fingerprint) := by
  unfold extract_image_metadata
  cases hp : extractParts phashS ahashS dhashS whashS colorhashS resizeLib
    colorStage textureStage orbStage pixelStage edgeStage freqStage img with
  | ok p => exact ⟨rfl, rfl⟩
  | error e => exact ⟨rfl, rfl⟩

/-- C1 counterexample: two calls on the byte-identical image at different
wall-clock instants produce different FeatureMetadata records — the
scan_timestamp fields differ — so the record is not identical in every
field as claimed (the fingerprint and all other fields do agree). -/
theorem claim1_counterexample :
    extract_image_metadata ("2025-01-01T00:00:00") (fun _ => "p")
      (fun _ => "a") (fun _ => "d") (fun _ => "w") (fun _ => "c")
      (fun _ _ _ => fun _ _ => (0, 0, 0))
      (fun _ => Except.ok ()) (fun _ => Except.ok ()) (fun _ => Except.ok ())
      (fun _ => Except.ok ()) (fun _ => Except.ok ()) (fun _ => Except.ok ())
      tImg ≠
    extract_image_metadata ("2025-01-01T00:00:01") (fun _ => "p")
      (fun _ => "a") (fun _ => "d") (fun _ => "w") (fun _ => "c")
      (fun _ _ _ => fun _ _ => (0, 0, 0))
      (fun _ => Except.ok ()) (fun _ => Except.ok ()) (fun _ => Except.ok ())
      (fun _ => Except.ok ()) (fun _ => Except.ok ()) (fun _ => Except.ok ())
      tImg := by
  intro hEq
  unfold extract_image_metadata at hEq
  have hp : ∃ p : ExtractParts Unit Unit Unit Unit Unit Unit,
      extractParts (fun _ => "p") (fun _ => "a") (fun _ => "d") (fun _ => "w")
        (fun _ => "c") (fun _ _ _ => fun _ _ => (0, 0, 0))
        (fun _ => Except.ok ()) (fun _ => Except.ok ()) (fun _ => Except.ok ())
        (fun _ => Except.ok ()) (fun _ => Except.ok ()) (fun _ => Except.ok ())
        tImg = Except.ok p := ⟨_, rfl⟩
  obtain ⟨p, hparts⟩ := hp
  rw [hparts] at hEq
  simp only [Except.map] at hEq
  have hts := congrArg Metadata.scan_timestamp (Except.ok.inj hEq)
  simp only [mkMetadata] at hts
  exact absurd hts (by decide)

/-- C3: the design fingerprint stored in the metadata is exactly the
SHA-256 hex digest of the separator-free concatenation of the six hash
strings in the fixed order perceptual, average, difference, wavelet,
color, content — and create_design_fingerprint is that digest for every
hash list, hence a deterministic function of the hash set. -/
theorem claim3_fingerprint_construction (C T O P E F : Type) (now : String)
    (phashS ahashS dhashS whashS colorhashS : PILImage → String)
    (resizeLib : PILImage → ℕ → ℕ → RGB8)
    (colorStage : RGB8 → Except PyErr C) (textureStage : RGB8 → Except PyErr T)
    (orbStage : RGB8 → Except PyErr O) (pixelStage : RGB8 → Except PyErr P)
    (edgeStage : RGB8 → Except PyErr E) (freqStage : RGB8 → Except PyErr F)
    (img : PILImage) :
    (extract_image_metadata now phashS ahashS dhashS whashS colorhashS
      resizeLib colorStage textureStage orbStage pixelStage edgeStage
      freqStage img).map (fun md => md.hashes.design_fingerprint) =
    (extract_image_metadata now phashS ahashS dhashS whashS colorhashS
      resizeLib colorStage textureStage orbStage pixelStage edgeStage
      freqStage img).map (fun md => sha256Hex (utf8Bytes (String.join
        [md.hashes.perceptual_hash, md.hashes.average_hash,
         md.hashes.difference_hash, md.hashes.wavelet_hash,
         md.hashes.color_hash, md.hashes.sha256]))) ∧
    (∀ hs : List String,
      create_design_fingerprint hs = sha256Hex (utf8Bytes (String.join hs))) := by
  constructor
  · unfold extract_image_metadata
    cases hp : extractParts phashS ahashS dhashS whashS colorhashS resizeLib
      colorStage textureStage orbStage pixelStage edgeStage freqStage img with
    | ok p => rfl
    | error e => rfl
  · intro hs
    rfl

/-- C7: a raising stage propagates tagged with the stage's traceback
frame, and any extraction failure makes scan_design_for_blockchain
return the structured failure dictionary: success false, no design_id,
no metadata (all-or-nothing), the exception type and message, the
elapsed time, the fixed failure message, and the traceback naming the
failing stage. -/
theorem claim7_structured_failure (C T O P E F : Type) (tStart tEnd : ℚ)
    (nowEnd now : String) (loadImage : List ℕ → Except PyErr PILImage)
    (phashS ahashS dhashS whashS colorhashS : PILImage → String)
    (resizeLib : PILImage → ℕ → ℕ → RGB8)
    (colorStage : RGB8 → Except PyErr C) (textureStage : RGB8 → Except PyErr T)
    (orbStage : RGB8 → Except PyErr O) (pixelStage : RGB8 → Except PyErr P)
    (edgeStage : RGB8 → Except PyErr E) (freqStage : RGB8 → Except PyErr F) :
    (∀ (α β : Type) (name : String) (f : α → Except PyErr β) (x : α)
      (e0 : PyErr), f x = Except.error e0 →
      runStage name f x = Except.error (pushFrame name e0) ∧
      name ∈ (pushFrame name e0).trace) ∧
    (∀ (img : PILImage) (e0 : PyErr),
      colorStage (resizeLib img 512 512) = Except.error e0 →
      extract_image_metadata now phashS ahashS dhashS whashS colorhashS
        resizeLib colorStage textureStage orbStage pixelStage edgeStage
        freqStage img =
        Except.error (pushFrame ("extract_color_features") e0)) ∧
    (∀ (image_bytes : List ℕ) (pil : PILImage) (e : PyErr),
      loadImage image_bytes = Except.ok pil →
      extract_image_metadata now phashS ahashS dhashS whashS colorhashS
        resizeLib colorStage textureStage orbStage pixelStage edgeStage
        freqStage pil = Except.error e →
      scan_design_for_blockchain tStart tEnd nowEnd now loadImage phashS
        ahashS dhashS whashS colorhashS resizeLib colorStage textureStage
        orbStage pixelStage edgeStage freqStage image_bytes =
        { success := false,
          design_id := none,
          metadata := none,
          scan_duration_seconds := pyRound2 (tEnd - tStart),
          message := "Scan failed - see error details",
          error_type := some e.etype, error_message := some e.msg,
          traceback_lines := e.trace,
          error_timestamp := some (nowEnd ++ "Z") }) := by
  refine ⟨?_, ?_, ?_⟩
  · intro α β name f x e0 hfx
    constructor
    · unfold runStage
      rw [hfx]
    · unfold pushFrame
      simp
  · intro img e0 hc
    simp only [extract_image_metadata, extractParts]
    have hrs : runStage ("extract_color_features") colorStage
        (resizeLib img 512 512) =
        Except.error (pushFrame ("extract_color_features") e0) := by
      unfold runStage
      rw [hc]
    rw [hrs]
    rfl
  · intro image_bytes pil e hload hext
    unfold scan_design_for_blockchain
    rw [hload]
    simp only [Except.bind]
    rw [hext]

/-- Witness for C7: a color stage that raises ValueError. The exception
reaches the scan result tagged with the extract_color_features frame,
with success false and no metadata. -/
theorem claim7_structured_failure_witness :
    scan_design_for_blockchain 0 2 ("2025-01-01T00:00:02")
      ("2025-01-01T00:00:00") (fun _ => Except.ok tImg) (fun _ => "p")
      (fun _ => "a") (fun _ => "d") (fun _ => "w") (fun _ => "c")
      (fun _ _ _ => fun _ _ => (0, 0, 0))
      (fun _ => Except.error { etype := "ValueError", msg := "boom", trace := [] })
      (fun _ => Except.ok ()) (fun _ => Except.ok ()) (fun _ => Except.ok ())
      (fun _ => Except.ok ()) (fun _ => Except.ok ()) [] =
      { success := false,
        design_id := none,
        metadata := (none : Option (Metadata Unit Unit Unit Unit Unit Unit)),
        scan_duration_seconds := pyRound2 (2 - 0),
        message := "Scan failed - see error details",
        error_type := some ("ValueError"), error_message := some ("boom"),
        traceback_lines := ["extract_color_features"],
        error_timestamp := some ("2025-01-01T00:00:02" ++ "Z") } :=
  (claim7_structured_failure Unit Unit Unit Unit Unit Unit 0 2
    ("2025-01-01T00:00:02") ("2025-01-01T00:00:00") (fun _ => Except.ok tImg)
    (fun _ => "p") (fun _ => "a") (fun _ => "d") (fun _ => "w") (fun _ => "c")
    (fun _ _ _ => fun _ _ => (0, 0, 0))
    (fun _ => Except.error { etype := "ValueError", msg := "boom", trace := [] })
    (fun _ => Except.ok ()) (fun _ => Except.ok ()) (fun _ => Except.ok ())
    (fun _ => Except.ok ()) (fun _ => Except.ok ())).2.2 [] tImg
    { etype := "ValueError", msg := "boom", trace := ["extract_color_features"] }
    rfl rfl

end Proofora
